import Mathlib

/-!
Verification of the X-infra causal state graph and its surrounding
components against the natural-language specification.

The Rust sources are shallowly embedded:
* `core/src/event.rs` / `src/src/graph.rs` as pure Lean functions over
  association lists (Rust `HashMap` is modelled as an association list with
  in-place replacement; all map operations used by the source are
  order-insensitive or go through key lookup, so this is faithful),
* `u64` / `u32` values as `Nat` (the source only uses `saturating_sub`,
  comparisons and equality, all of which `Nat` with `∸` models exactly),
* `f64` parsing (`str::parse::<f64>`) as exact decimal parsing into `ℚ`;
  the source only compares parsed values against the thresholds 1.0 and
  80.0, and on decimal literals those comparisons agree with IEEE `f64`,
* async/await and the `RwLock`s disappear: every handler holds both locks
  for its whole body, so each `process_event` is one atomic state update.
-/

namespace XInfra

/-- The eight atomic event families of `core/src/event.rs` (`EventType`). -/
inductive EventType where
  | ComputeUtil
  | ComputeMem
  | TransportBw
  | TransportDrop
  | StorageIops
  | StorageQDepth
  | ProcessState
  | ErrorHw
  | ErrorNet
  | TopoLinkDown
  | IntentRun
  | ActionExec
deriving DecidableEq, Repr

/-- The unified event carrier of `core/src/event.rs` (`Event`). -/
structure Event where
  ts : Nat
  event_type : EventType
  entity_id : String
  job_id : Option String
  pid : Option Nat
  value : String
  node_id : Option String
deriving DecidableEq, Repr

/-- The three derived edge kinds of `src/src/graph.rs` (`EdgeType`). -/
inductive EdgeType where
  | Consumes
  | WaitsOn
  | BlockedBy
deriving DecidableEq, Repr

/-- An edge of the state graph (`src/src/graph.rs`, `Edge`). -/
structure Edge where
  edge_type : EdgeType
  from_ : String
  to_ : String
  ts : Nat
deriving DecidableEq, Repr

/-- Node kinds (`src/src/graph.rs`, `NodeType`). -/
inductive NodeType where
  | Process
  | Resource
  | Error
deriving DecidableEq, Repr

/-- Association-list model of Rust's `HashMap<String, V>`: at most one
entry per key, insertion replaces in place or appends at the end. -/
def alInsert {K V : Type} [DecidableEq K] (k : K) (v : V) : List (K × V) → List (K × V)
  | [] => [(k, v)]
  | (k', v') :: rest => if k' = k then (k, v) :: rest else (k', v') :: alInsert k v rest

/-- Key lookup in the association-list map model. -/
def alGet {K V : Type} [DecidableEq K] (k : K) : List (K × V) → Option V
  | [] => none
  | (k', v) :: rest => if k' = k then some v else alGet k rest

/-- A node of the state graph (`src/src/graph.rs`, `Node`); `metadata` is
the `HashMap<String, String>` of extra attributes. -/
structure Node where
  id : String
  node_type : NodeType
  last_update : Nat
  metadata : List (String × String)
deriving DecidableEq, Repr

/-- The state graph (`src/src/graph.rs`, `StateGraph`). -/
structure StateGraph where
  nodes : List (String × Node)
  edges : List Edge
  error_window_ms : Nat
deriving DecidableEq, Repr

/-- `StateGraph::new`: empty graph with a 5-minute error window. -/
def StateGraph.new : StateGraph :=
  { nodes := [], edges := [], error_window_ms := 5 * 60 * 1000 }

/-- Substring check on character lists (model of Rust `str::contains`). -/
def charsHavePrefix : List Char → List Char → Bool
  | [], _ => true
  | _ :: _, [] => false
  | a :: as, b :: bs => a = b && charsHavePrefix as bs

/-- `haystack.contains(needle)` for strings, via character lists. -/
def charsHaveSub (needle : List Char) : List Char → Bool
  | [] => needle.isEmpty
  | c :: rest => charsHavePrefix needle (c :: rest) || charsHaveSub needle rest

/-- Model of Rust `str::contains` on `String`. -/
def strHasSub (hay needle : String) : Bool :=
  charsHaveSub needle.data hay.data

/-- Model of Rust `str::to_lowercase` (character-wise; on the ASCII and
Chinese texts used by the action table both agree). -/
def strToLower (s : String) : String :=
  String.mk (s.data.map Char.toLower)

/-- Value of a digit string (most significant first). -/
def digitsVal (cs : List Char) : Nat :=
  cs.foldl (fun a c => a * 10 + (c.toNat - 48)) 0

/-- Model of Rust `str::parse::<f64>()` restricted to plain decimal
notation `[+-]digits[.digits]`; other shapes (exponents, `inf`, `NaN`)
are mapped to a parse failure.  The graph and forwarder only compare the
parsed value against 1.0 and 80.0, and on plain decimals those
comparisons agree between exact rationals and IEEE `f64`. -/
def parseF (s : String) : Option ℚ :=
  let signBody : Bool × List Char :=
    match s.data with
    | '-' :: rest => (true, rest)
    | '+' :: rest => (false, rest)
    | cs => (false, cs)
  let neg := signBody.1
  let mk : ℚ → Option ℚ := fun q => some (if neg then -q else q)
  match signBody.2.splitOn '.' with
  | [ip] =>
    if ip ≠ [] ∧ ip.all Char.isDigit then mk (digitsVal ip) else none
  | [ip, fp] =>
    if (ip ≠ [] ∨ fp ≠ []) ∧ ip.all Char.isDigit ∧ fp.all Char.isDigit then
      mk ((digitsVal ip : ℚ) + (digitsVal fp : ℚ) / ((10 : ℚ) ^ fp.length))
    else none
  | _ => none


/-- The source idiom `if !nodes.contains_key(id) { nodes.insert(id, n) }`. -/
def ensureNode (id : String) (n : Node) (nodes : List (String × Node)) :
    List (String × Node) :=
  if (alGet id nodes).isSome then nodes else alInsert id n nodes

/-- The source idiom `if let Some(node) = nodes.get_mut(id) { mutate }`. -/
def updateNode (id : String) (f : Node → Node) (nodes : List (String × Node)) :
    List (String × Node) :=
  match alGet id nodes with
  | some node => alInsert id (f node) nodes
  | none => nodes

/-- `handle_process_state` (`src/src/graph.rs` lines 89-120). -/
def StateGraph.handle_process_state (g : StateGraph) (event : Event) : StateGraph :=
  match event.pid with
  | none => g
  | some pid =>
    let pid_str := "pid-" ++ toString pid
    if event.value = "start" then
      let metadata0 : List (String × String) :=
        match event.job_id with
        | some job_id => alInsert "job_id" job_id []
        | none => []
      let metadata := alInsert "state" "running" metadata0
      let node : Node :=
        { id := pid_str, node_type := NodeType.Process,
          last_update := event.ts, metadata := metadata }
      { g with nodes := alInsert pid_str node g.nodes }
    else if event.value = "exit" ∨ event.value = "zombie" then
      let nodes := updateNode pid_str
        (fun node =>
          { node with
            metadata := alInsert "state" event.value node.metadata,
            last_update := event.ts }) g.nodes
      { g with nodes := nodes }
    else g

/-- `handle_compute_event` (`src/src/graph.rs` lines 123-181). -/
def StateGraph.handle_compute_event (g : StateGraph) (event : Event) : StateGraph :=
  let nodes := ensureNode event.entity_id
    { id := event.entity_id, node_type := NodeType.Resource,
      last_update := event.ts, metadata := [] } g.nodes
  let nodes := updateNode event.entity_id
    (fun node =>
      { node with
        metadata := alInsert "util" event.value node.metadata,
        last_update := event.ts }) nodes
  match event.pid with
  | none => { g with nodes := nodes }
  | some pid =>
    let pid_str := "pid-" ++ toString pid
    let nodes := ensureNode pid_str
      { id := pid_str, node_type := NodeType.Process,
        last_update := event.ts, metadata := [] } nodes
    let edge_exists := g.edges.any fun e =>
      decide (e.edge_type = EdgeType.Consumes ∧ e.from_ = pid_str ∧ e.to_ = event.entity_id)
    let edges :=
      if edge_exists then g.edges
      else g.edges ++ [{ edge_type := EdgeType.Consumes, from_ := pid_str,
                         to_ := event.entity_id, ts := event.ts }]
    { g with nodes := nodes, edges := edges }

/-- `handle_transport_event` (`src/src/graph.rs` lines 184-262). -/
def StateGraph.handle_transport_event (g : StateGraph) (event : Event) : StateGraph :=
  let nodes := ensureNode event.entity_id
    { id := event.entity_id, node_type := NodeType.Resource,
      last_update := event.ts, metadata := [] } g.nodes
  let key :=
    match event.event_type with
    | EventType.TransportBw => "bw"
    | EventType.TransportDrop => "drop"
    | _ => "unknown"
  let nodes := updateNode event.entity_id
    (fun node =>
      { node with
        metadata := alInsert key event.value node.metadata,
        last_update := event.ts }) nodes
  match event.pid with
  | none => { g with nodes := nodes }
  | some pid =>
    let should_create_waitson :=
      match event.event_type with
      | EventType.TransportDrop => true
      | EventType.TransportBw =>
        strHasSub event.value "IO_WAIT" || decide ((parseF event.value).getD 1000 < 1)
      | _ => false
    if should_create_waitson then
      let pid_str := "pid-" ++ toString pid
      let nodes := ensureNode pid_str
        { id := pid_str, node_type := NodeType.Process,
          last_update := event.ts, metadata := [] } nodes
      let edge_exists := g.edges.any fun e =>
        decide (e.edge_type = EdgeType.WaitsOn ∧ e.from_ = pid_str ∧ e.to_ = event.entity_id)
      let edges :=
        if edge_exists then g.edges
        else g.edges ++ [{ edge_type := EdgeType.WaitsOn, from_ := pid_str,
                           to_ := event.entity_id, ts := event.ts }]
      { g with nodes := nodes, edges := edges }
    else
      { g with nodes := nodes }

/-- `handle_storage_event` (`src/src/graph.rs` lines 265-268): delegates
to the transport handler with the storage event type unchanged. -/
def StateGraph.handle_storage_event (g : StateGraph) (event : Event) : StateGraph :=
  g.handle_transport_event event

/-- `handle_error_event` (`src/src/graph.rs` lines 271-324). -/
def StateGraph.handle_error_event (g : StateGraph) (event : Event) : StateGraph :=
  let error_id := "error-" ++ event.entity_id
  let nodes := ensureNode error_id
    { id := error_id, node_type := NodeType.Error, last_update := event.ts,
      metadata := alInsert "error_type" event.value [] } g.nodes
  let resource_id := event.entity_id
  let affected_pids : List String :=
    (g.edges.filter fun e =>
      decide (e.edge_type = EdgeType.Consumes ∧ e.to_ = resource_id)).map (·.from_)
  let edges := affected_pids.foldl
    (fun edges pid_str =>
      let edge_exists := edges.any fun e =>
        decide (e.edge_type = EdgeType.BlockedBy ∧ e.from_ = pid_str ∧ e.to_ = error_id)
      if edge_exists then edges
      else edges ++ [{ edge_type := EdgeType.BlockedBy, from_ := pid_str,
                       to_ := error_id, ts := event.ts }])
    g.edges
  { g with nodes := nodes, edges := edges }

/-- `handle_topo_event` (`src/src/graph.rs` lines 327-330): a topology
degradation is treated as an error event. -/
def StateGraph.handle_topo_event (g : StateGraph) (event : Event) : StateGraph :=
  g.handle_error_event event

/-- Dead-process predicate inside `cleanup_old_errors`
(`src/src/graph.rs` lines 361-379). -/
def deadProcess (process_cutoff : Nat) (n : Node) : Prop :=
  n.node_type = NodeType.Process ∧
    (let state := alGet "state" n.metadata
     (state = some "exit" ∨ state = some "zombie") ∨
       (n.last_update < process_cutoff ∧ state ≠ some "running"))

instance (c : Nat) (n : Node) : Decidable (deadProcess c n) := by
  unfold deadProcess; infer_instance

/-- `cleanup_old_errors` (`src/src/graph.rs` lines 333-392). `u64`
`saturating_sub` is `Nat` subtraction. -/
def StateGraph.cleanup_old_errors (g : StateGraph) (current_ts : Nat) : StateGraph :=
  let cutoff_ts := current_ts - g.error_window_ms
  let error_ids : List String := (g.nodes.filter fun kv =>
    decide (kv.2.node_type = NodeType.Error ∧ kv.2.last_update < cutoff_ts)).map (·.1)
  let nodes := g.nodes.filter fun kv => decide (¬ kv.1 ∈ error_ids)
  let edges := g.edges.filter fun e =>
    decide (¬ (e.edge_type = EdgeType.BlockedBy ∧ e.to_ ∈ error_ids))
  let process_cutoff := current_ts - 10 * 60 * 1000
  let dead_pids : List String :=
    (nodes.filter fun kv => decide (deadProcess process_cutoff kv.2)).map (·.1)
  let nodes := nodes.filter fun kv => decide (¬ kv.1 ∈ dead_pids)
  let edges := edges.filter fun e => decide (¬ e.from_ ∈ dead_pids ∧ ¬ e.to_ ∈ dead_pids)
  { g with nodes := nodes, edges := edges }

/-- The dispatch `match` of `process_event` (`src/src/graph.rs` lines
58-80), factored out so lemmas can speak about the pre-cleanup state. -/
def StateGraph.dispatch_event (g : StateGraph) (event : Event) : StateGraph :=
  match event.event_type with
  | EventType.ProcessState => g.handle_process_state event
  | EventType.ComputeUtil | EventType.ComputeMem => g.handle_compute_event event
  | EventType.TransportBw | EventType.TransportDrop => g.handle_transport_event event
  | EventType.StorageIops | EventType.StorageQDepth => g.handle_storage_event event
  | EventType.ErrorHw | EventType.ErrorNet => g.handle_error_event event
  | EventType.TopoLinkDown => g.handle_topo_event event
  | _ => g

/-- `process_event` (`src/src/graph.rs` lines 57-86): dispatch on the
event kind, then expire old errors against the event's timestamp. -/
def StateGraph.process_event (g : StateGraph) (event : Event) : StateGraph :=
  (g.dispatch_event event).cleanup_old_errors event.ts

/-- Ingest a list of events in order into an existing graph. -/
def StateGraph.ingestAll (g : StateGraph) (events : List Event) : StateGraph :=
  events.foldl StateGraph.process_event g

/-- Ingest a list of events in order, starting from the empty graph. -/
def runEvents (events : List Event) : StateGraph :=
  StateGraph.new.ingestAll events

/-- One level of `dfs_backward` (`src/src/graph.rs` lines 434-473), with
the recursive call abstracted as `rec`.  The pair threads the mutable
`(visited, causes)` state of the source; `visited` is a `HashSet`
modelled as a list used only through membership. -/
def dfsLevel (edges : List Edge) (nodes : List (String × Node))
    (rec : String → List String × List String → List String × List String)
    (node_id : String) (vc : List String × List String) :
    List String × List String :=
  if node_id ∈ vc.1 then vc
  else
    let vc1 := edges.foldl
      (fun vc e =>
        if e.edge_type = EdgeType.BlockedBy ∧ e.from_ = node_id then
          match alGet e.to_ nodes with
          | some n =>
            let cs :=
              if n.node_type = NodeType.Error then
                vc.2 ++ [e.to_ ++ ": " ++ ((alGet "error_type" n.metadata).getD "未知错误")]
              else vc.2
            rec e.to_ (vc.1, cs)
          | none => vc
        else vc)
      (node_id :: vc.1, vc.2)
    (vc1.1, vc1.2 ++ (edges.filter fun e =>
        decide (e.edge_type = EdgeType.WaitsOn ∧ e.from_ = node_id)).map
        (fun e => "等待资源: " ++ e.to_))

/-- `dfs_backward` with explicit fuel.  In the source the recursion
terminates because `visited` grows strictly on every productive call;
each nested call consumes a distinct `BlockedBy` edge, so the depth is
at most `edges.length + 1` and that fuel (used by `find_root_cause`
below) makes the embedding agree with the source. -/
def dfs_backward (edges : List Edge) (nodes : List (String × Node)) :
    Nat → String → List String × List String → List String × List String
  | 0, _, vc => vc
  | Nat.succ fuel, node_id, vc =>
    dfsLevel edges nodes (dfs_backward edges nodes fuel) node_id vc

/-- `find_root_cause` (`src/src/graph.rs` lines 422-432). -/
def StateGraph.find_root_cause (g : StateGraph) (pid : Nat) : List String :=
  let pid_str := "pid-" ++ toString pid
  (dfs_backward g.edges g.nodes (g.edges.length + 1) pid_str ([], [])).2

/-! ### Generic lemmas about the association-list map model -/

theorem strDataAppend (a b : String) : (a ++ b).data = a.data ++ b.data := rfl

theorem alGet_alInsert_self {V : Type} (k : String) (v : V) (l : List (String × V)) :
    alGet k (alInsert k v l) = some v := by
  induction l with
  | nil => simp [alInsert, alGet]
  | cons kv rest ih =>
    obtain ⟨a, b⟩ := kv
    by_cases ha : a = k
    · subst ha; simp [alInsert, alGet]
    · simp [alInsert, alGet, ha, ih]

theorem alGet_alInsert_ne {V : Type} {k k' : String} (v : V) (l : List (String × V))
    (h : k ≠ k') : alGet k (alInsert k' v l) = alGet k l := by
  induction l with
  | nil => simp [alInsert, alGet, Ne.symm h]
  | cons kv rest ih =>
    obtain ⟨a, b⟩ := kv
    by_cases ha : a = k'
    · subst ha
      simp [alInsert, alGet, Ne.symm h]
    · by_cases hak : a = k
      · subst hak; simp [alInsert, alGet, ha]
      · simp [alInsert, alGet, ha, hak, ih]

theorem alGet_mem {V : Type} {k : String} {v : V} {l : List (String × V)}
    (h : alGet k l = some v) : (k, v) ∈ l := by
  induction l with
  | nil => simp [alGet] at h
  | cons kv rest ih =>
    obtain ⟨a, b⟩ := kv
    by_cases ha : a = k
    · subst ha
      simp [alGet] at h
      simp [h]
    · simp [alGet, ha] at h
      exact List.mem_cons_of_mem _ (ih h)

theorem alGet_eq_none_of_forall {V : Type} {k : String} {l : List (String × V)}
    (h : ∀ kv ∈ l, kv.1 ≠ k) : alGet k l = none := by
  induction l with
  | nil => rfl
  | cons kv rest ih =>
    obtain ⟨a, b⟩ := kv
    have ha : a ≠ k := h (a, b) (List.mem_cons_self _ _)
    simp [alGet, ha]
    exact ih fun kv hkv => h kv (List.mem_cons_of_mem _ hkv)

theorem alGet_filter_none {V : Type} (k : String) (l : List (String × V))
    (p : String × V → Bool) (hp : ∀ kv, p kv = true → kv.1 ≠ k) :
    alGet k (l.filter p) = none := by
  refine alGet_eq_none_of_forall fun kv hkv => ?_
  exact hp kv (List.of_mem_filter hkv)

theorem forall_ne_of_alGet_none {V : Type} {k : String} {l : List (String × V)}
    (h : alGet k l = none) : ∀ kv ∈ l, kv.1 ≠ k := by
  induction l with
  | nil => intro kv hkv; simp at hkv
  | cons kv' rest ih =>
    obtain ⟨a, b⟩ := kv'
    by_cases ha : a = k
    · subst ha; simp [alGet] at h
    · simp [alGet, ha] at h
      intro kv hkv
      rcases List.mem_cons.mp hkv with heq | hmem
      · subst heq; exact ha
      · exact ih h kv hmem

theorem alGet_none_filter {V : Type} {k : String} {l : List (String × V)}
    (p : String × V → Bool) (h : alGet k l = none) : alGet k (l.filter p) = none :=
  alGet_eq_none_of_forall fun kv hkv =>
    forall_ne_of_alGet_none h kv (List.mem_of_mem_filter hkv)

/-! ### String disjointness facts about the id namespaces -/

theorem pid_ne_error_key (t u : String) : "pid-" ++ t ≠ "error-" ++ u := by
  intro h
  have hd := congrArg String.data h
  rw [strDataAppend, strDataAppend] at hd
  have h1 : ("pid-" : String).data = ['p', 'i', 'd', '-'] := rfl
  have h2 : ("error-" : String).data = ['e', 'r', 'r', 'o', 'r', '-'] := rfl
  rw [h1, h2] at hd
  simp at hd

theorem error_prefix_inj {x y : String} (h : "error-" ++ x = "error-" ++ y) : x = y := by
  have hd := congrArg String.data h
  rw [strDataAppend, strDataAppend] at hd
  exact String.ext (List.append_cancel_left hd)

theorem pid_prefix_inj {x y : String} (h : "pid-" ++ x = "pid-" ++ y) : x = y := by
  have hd := congrArg String.data h
  rw [strDataAppend, strDataAppend] at hd
  exact String.ext (List.append_cancel_left hd)

/-! ### Node keys each handler can touch -/

theorem alGet_ensure_ne {k id : String} (n : Node) (l : List (String × Node))
    (h : k ≠ id) : alGet k (ensureNode id n l) = alGet k l := by
  unfold ensureNode
  split
  · rfl
  · exact alGet_alInsert_ne _ _ h

theorem alGet_update_ne {k id : String} (f : Node → Node) (l : List (String × Node))
    (h : k ≠ id) : alGet k (updateNode id f l) = alGet k l := by
  unfold updateNode
  split
  · exact alGet_alInsert_ne _ _ h
  · rfl

theorem hps_nodes (g : StateGraph) (ev : Event) (k : String)
    (hpid : ∀ n : Nat, k ≠ "pid-" ++ toString n) :
    alGet k (g.handle_process_state ev).nodes = alGet k g.nodes := by
  unfold StateGraph.handle_process_state
  cases hp : ev.pid with
  | none => rfl
  | some p =>
    dsimp only
    split
    · exact alGet_alInsert_ne _ _ (hpid p)
    · split
      · exact alGet_update_ne _ _ (hpid p)
      · rfl

theorem hce_nodes (g : StateGraph) (ev : Event) (k : String)
    (hent : k ≠ ev.entity_id) (hpid : ∀ n : Nat, k ≠ "pid-" ++ toString n) :
    alGet k (g.handle_compute_event ev).nodes = alGet k g.nodes := by
  unfold StateGraph.handle_compute_event
  cases hp : ev.pid <;> dsimp only
  · rw [alGet_update_ne _ _ hent, alGet_ensure_ne _ _ hent]
  · rw [alGet_ensure_ne _ _ (hpid _), alGet_update_ne _ _ hent,
      alGet_ensure_ne _ _ hent]

theorem hte_nodes (g : StateGraph) (ev : Event) (k : String)
    (hent : k ≠ ev.entity_id) (hpid : ∀ n : Nat, k ≠ "pid-" ++ toString n) :
    alGet k (g.handle_transport_event ev).nodes = alGet k g.nodes := by
  unfold StateGraph.handle_transport_event
  cases hp : ev.pid <;> dsimp only
  · rw [alGet_update_ne _ _ hent, alGet_ensure_ne _ _ hent]
  · split
    · rw [alGet_ensure_ne _ _ (hpid _), alGet_update_ne _ _ hent,
        alGet_ensure_ne _ _ hent]
    · rw [alGet_update_ne _ _ hent, alGet_ensure_ne _ _ hent]

theorem hee_nodes (g : StateGraph) (ev : Event) (k : String)
    (herr : k ≠ "error-" ++ ev.entity_id) :
    alGet k (g.handle_error_event ev).nodes = alGet k g.nodes := by
  unfold StateGraph.handle_error_event
  dsimp only
  exact alGet_ensure_ne _ _ herr

theorem dispatch_nodes (g : StateGraph) (ev : Event) (k : String)
    (hent : k ≠ ev.entity_id) (hpid : ∀ n : Nat, k ≠ "pid-" ++ toString n)
    (herr : k ≠ "error-" ++ ev.entity_id) :
    alGet k (g.dispatch_event ev).nodes = alGet k g.nodes := by
  unfold StateGraph.dispatch_event StateGraph.handle_storage_event
    StateGraph.handle_topo_event
  cases ev.event_type <;>
    first
      | rfl
      | exact hps_nodes g ev k hpid
      | exact hce_nodes g ev k hent hpid
      | exact hte_nodes g ev k hent hpid
      | exact hee_nodes g ev k herr

/-! ### What cleanup removes -/

theorem cleanup_removes_expired (g : StateGraph) (ts : Nat) (k : String) (n : Node)
    (hget : alGet k g.nodes = some n) (hty : n.node_type = NodeType.Error)
    (hlt : n.last_update < ts - g.error_window_ms) :
    alGet k (g.cleanup_old_errors ts).nodes = none ∧
      ∀ e ∈ (g.cleanup_old_errors ts).edges,
        ¬ (e.edge_type = EdgeType.BlockedBy ∧ e.to_ = k) := by
  unfold StateGraph.cleanup_old_errors
  dsimp only
  have hkmem : k ∈ ((g.nodes.filter fun kv =>
      decide (kv.2.node_type = NodeType.Error ∧ kv.2.last_update < ts - g.error_window_ms)).map
      (fun x => x.1)) := by
    refine List.mem_map.mpr ⟨(k, n), ?_, rfl⟩
    refine List.mem_filter.mpr ⟨alGet_mem hget, ?_⟩
    simp [hty, hlt]
  constructor
  · apply alGet_none_filter
    apply alGet_filter_none
    intro kv hp hk1
    rw [decide_eq_true_eq] at hp
    exact hp (hk1 ▸ hkmem)
  · intro e he hbad
    have he1 := List.mem_of_mem_filter he
    have hkeep := List.of_mem_filter he1
    rw [decide_eq_true_eq] at hkeep
    exact hkeep ⟨hbad.1, hbad.2 ▸ hkmem⟩

/-! ### Window- and edge-shape facts about the handlers -/

theorem hps_window (g : StateGraph) (ev : Event) :
    (g.handle_process_state ev).error_window_ms = g.error_window_ms := by
  unfold StateGraph.handle_process_state
  cases ev.pid with
  | none => rfl
  | some p =>
    dsimp only
    split
    · rfl
    · split <;> rfl

theorem hce_window (g : StateGraph) (ev : Event) :
    (g.handle_compute_event ev).error_window_ms = g.error_window_ms := by
  unfold StateGraph.handle_compute_event
  cases ev.pid <;> rfl

theorem hte_window (g : StateGraph) (ev : Event) :
    (g.handle_transport_event ev).error_window_ms = g.error_window_ms := by
  unfold StateGraph.handle_transport_event
  cases ev.pid with
  | none => rfl
  | some p =>
    dsimp only
    split <;> rfl

theorem hee_window (g : StateGraph) (ev : Event) :
    (g.handle_error_event ev).error_window_ms = g.error_window_ms := rfl

theorem dispatch_window (g : StateGraph) (ev : Event) :
    (g.dispatch_event ev).error_window_ms = g.error_window_ms := by
  unfold StateGraph.dispatch_event StateGraph.handle_storage_event
    StateGraph.handle_topo_event
  cases ev.event_type <;>
    first
      | rfl
      | exact hps_window g ev
      | exact hce_window g ev
      | exact hte_window g ev

/-! ### Scenario inputs from §8 of the specification -/

/-- Build an event record; `node_id` is left unset as for local ingestion. -/
def mkEv (ts : Nat) (et : EventType) (ent : String) (job : Option String)
    (pid : Option Nat) (v : String) : Event :=
  { ts := ts, event_type := et, entity_id := ent, job_id := job, pid := pid,
    value := v, node_id := none }

/-- Scenario S1 of the specification: blocked by GPU error. -/
def S1 : List Event :=
  [ mkEv 1000 EventType.ProcessState "proc-1" (some "job-A") (some 1) "start",
    mkEv 1010 EventType.ComputeUtil "gpu-0" none (some 1) "90",
    mkEv 1020 EventType.ErrorHw "gpu-0" none none "XID_79" ]

/-- Scenario S2 of the specification: network stall. -/
def S2 : List Event :=
  [ mkEv 2000 EventType.ProcessState "proc-2" none (some 2) "start",
    mkEv 2010 EventType.TransportDrop "mlx5_0" none (some 2) "7" ]

theorem runEvents_append_single (l : List Event) (e : Event) :
    runEvents (l ++ [e]) = (runEvents l).process_event e := by
  simp [runEvents, StateGraph.ingestAll, List.foldl_append]

/-! ### Claim C1 -/

/-- The unrelated event of the S4 scenario at the timestamp the claim uses. -/
def unrelated301001 : Event := mkEv 301001 EventType.ComputeUtil "gpu-9" none none "50"

/-- The same unrelated event at the first timestamp that actually expires
the error node (`1020 + 5*60_000 + 1`). -/
def unrelated301021 : Event := mkEv 301021 EventType.ComputeUtil "gpu-9" none none "50"

/-- C1 counterexample: after S1, an unrelated event at
`ts = 1000 + 5*60_000 + 1 = 301001` does NOT remove `error-gpu-0`: the
error node was created at `ts = 1020`, so its expiry cutoff is
`1020 + 5*60_000`, and at 301001 both the node and its `BlockedBy` edge
are still present, contradicting the claim. -/
theorem C1_counterexample :
    alGet "error-gpu-0" (runEvents (S1 ++ [unrelated301001])).nodes ≠ none ∧
      ∃ e ∈ (runEvents (S1 ++ [unrelated301001])).edges,
        e.edge_type = EdgeType.BlockedBy ∧ e.to_ = "error-gpu-0" := by
  decide

/-- C1 (amended): after S1, ingesting any event unrelated to `gpu-0`
(its `entity_id` is neither `gpu-0` nor `error-gpu-0`) whose timestamp is
at least `1020 + 5*60_000 + 1` — five minutes past the error event's own
timestamp, not the first event's — leaves a graph with no `error-gpu-0`
node and no `BlockedBy` edge pointing to it. -/
theorem C1_error_expiry_amended (ev : Event)
    (hts : 1020 + 5 * 60000 + 1 ≤ ev.ts)
    (h1 : ev.entity_id ≠ "gpu-0") (h2 : ev.entity_id ≠ "error-gpu-0") :
    alGet "error-gpu-0" (runEvents (S1 ++ [ev])).nodes = none ∧
      ∀ e ∈ (runEvents (S1 ++ [ev])).edges,
        ¬ (e.edge_type = EdgeType.BlockedBy ∧ e.to_ = "error-gpu-0") := by
  rw [runEvents_append_single]
  have hent : "error-gpu-0" ≠ ev.entity_id := Ne.symm h2
  have hpid : ∀ n : Nat, ("error-gpu-0" : String) ≠ "pid-" ++ toString n := by
    intro n h
    exact pid_ne_error_key (toString n) "gpu-0" h.symm
  have herr : ("error-gpu-0" : String) ≠ "error-" ++ ev.entity_id := by
    intro h
    exact h1 (error_prefix_inj h).symm
  have hget0 : alGet "error-gpu-0" (runEvents S1).nodes =
      some { id := "error-gpu-0", node_type := NodeType.Error,
             last_update := 1020, metadata := [("error_type", "XID_79")] } := by
    decide
  have hget : alGet "error-gpu-0" ((runEvents S1).dispatch_event ev).nodes =
      some { id := "error-gpu-0", node_type := NodeType.Error,
             last_update := 1020, metadata := [("error_type", "XID_79")] } :=
    (dispatch_nodes _ ev _ hent hpid herr).trans hget0
  have hwin : ((runEvents S1).dispatch_event ev).error_window_ms = 300000 := by
    rw [dispatch_window]
    decide
  have hlt : (1020 : Nat) < ev.ts - ((runEvents S1).dispatch_event ev).error_window_ms := by
    rw [hwin]
    omega
  exact cleanup_removes_expired _ ev.ts _ _ hget rfl hlt

/-- C1 witness: the amended statement at the concrete unrelated event
with timestamp `1020 + 5*60_000 + 1 = 301021`. -/
theorem C1_error_expiry_amended_witness :
    alGet "error-gpu-0" (runEvents (S1 ++ [unrelated301021])).nodes = none ∧
      ∀ e ∈ (runEvents (S1 ++ [unrelated301021])).edges,
        ¬ (e.edge_type = EdgeType.BlockedBy ∧ e.to_ = "error-gpu-0") :=
  C1_error_expiry_amended unrelated301021 (by decide) (by decide) (by decide)

/-! ### Claim C3 -/

/-- C3 counterexample: after S2, the root-cause list for pid 2 does not
contain the English string `"waiting on resource: mlx5_0"` — the source
emits the Chinese label `"等待资源: "` instead. -/
theorem C3_counterexample :
    ¬ ("waiting on resource: " ++ "mlx5_0") ∈ (runEvents S2).find_root_cause 2 := by
  decide

/-- C3 (amended): for every process `p` with a `WaitsOn` edge to a
resource `r`, `root_cause(p)` includes the string `"等待资源: "`
followed by `r` (the source's label for a stalled-on resource); the
English rendering in the claim does not occur in the code. -/
theorem C3_waits_on_amended (g : StateGraph) (p : Nat) (r : String)
    (h : ∃ e ∈ g.edges, e.edge_type = EdgeType.WaitsOn ∧
        e.from_ = "pid-" ++ toString p ∧ e.to_ = r) :
    ("等待资源: " ++ r) ∈ g.find_root_cause p := by
  obtain ⟨e, he, hty, hfrom, hto⟩ := h
  unfold StateGraph.find_root_cause
  dsimp only
  rw [dfs_backward]
  unfold dfsLevel
  rw [if_neg (by simp)]
  dsimp only
  refine List.mem_append_right _ ?_
  refine List.mem_map.mpr ⟨e, ?_, by rw [hto]⟩
  refine List.mem_filter.mpr ⟨he, ?_⟩
  simp [hty, hfrom]

/-- C3 witness: the amended statement at the concrete S2 scenario. -/
theorem C3_waits_on_amended_witness :
    ("等待资源: " ++ "mlx5_0") ∈ (runEvents S2).find_root_cause 2 :=
  C3_waits_on_amended (runEvents S2) 2 "mlx5_0" (by decide)

/-! ### Claim C4 -/

/-- C4 (code bug): a `storage.iops` event carrying a pid and a stall
value (`"0.5"`, below 1.0) and a `storage.qdepth` event carrying the
literal `IO_WAIT` create NO `WaitsOn` edge (indeed no edge at all, and
no `pid-4` process node): `handle_storage_event` delegates to
`handle_transport_event`, whose `should_create_waitson` match sends
every storage kind to the `_ => false` arm. -/
theorem C4_storage_stall_no_waitson :
    ((StateGraph.new.process_event
        (mkEv 3000 EventType.StorageIops "nvme0" none (some 4) "0.5")).edges = [] ∧
      alGet "pid-4" (StateGraph.new.process_event
        (mkEv 3000 EventType.StorageIops "nvme0" none (some 4) "0.5")).nodes = none) ∧
    ((StateGraph.new.process_event
        (mkEv 3000 EventType.StorageQDepth "nvme0" none (some 4) "IO_WAIT")).edges = [] ∧
      alGet "pid-4" (StateGraph.new.process_event
        (mkEv 3000 EventType.StorageQDepth "nvme0" none (some 4) "IO_WAIT")).nodes = none) := by
  decide

/-! ### More association-list lemmas (unique keys) -/

theorem alGet_of_nodup_mem {V : Type} {l : List (String × V)}
    (hnd : (l.map Prod.fst).Nodup) {k : String} {v : V}
    (hmem : (k, v) ∈ l) : alGet k l = some v := by
  induction l with
  | nil => simp at hmem
  | cons kv rest ih =>
    obtain ⟨a, b⟩ := kv
    rcases List.mem_cons.mp hmem with heq | hmem'
    · obtain ⟨h1, h2⟩ := Prod.mk.injEq .. ▸ heq
      cases heq
      simp [alGet]
    · have ha : a ≠ k := by
        intro hak
        subst hak
        have : a ∈ rest.map Prod.fst := List.mem_map.mpr ⟨(a, v), hmem', rfl⟩
        exact (List.nodup_cons.mp hnd).1 this
      simp [alGet, ha]
      exact ih (List.nodup_cons.mp hnd).2 hmem'

theorem alGet_filter_keep {V : Type} {k : String} {v : V} {l : List (String × V)}
    (p : String × V → Bool) (h : alGet k l = some v) (hp : p (k, v) = true) :
    alGet k (l.filter p) = some v := by
  induction l with
  | nil => simp [alGet] at h
  | cons kv rest ih =>
    obtain ⟨a, b⟩ := kv
    by_cases ha : a = k
    · subst ha
      simp [alGet] at h
      subst h
      simp [List.filter, hp, alGet]
    · simp [alGet, ha] at h
      cases hpk : p (a, b) with
      | true => simp [List.filter, hpk, alGet, ha]; exact ih h
      | false => simp [List.filter, hpk]; exact ih h

/-! ### Cleanup characterization for surviving error nodes -/

theorem cleanup_edges_sub (g : StateGraph) (ts : Nat) :
    ∀ e ∈ (g.cleanup_old_errors ts).edges, e ∈ g.edges := by
  unfold StateGraph.cleanup_old_errors
  dsimp only
  intro e he
  exact List.mem_of_mem_filter (List.mem_of_mem_filter he)

/-- If `k`'s (unique) node is an `Error` node, cleanup either removes it
(when its window has expired relative to the reference timestamp) or
keeps it exactly as it was. -/
theorem cleanup_error_lookup (g : StateGraph) (ts : Nat) (k : String) (n : Node)
    (hnd : (g.nodes.map Prod.fst).Nodup)
    (hget : alGet k g.nodes = some n) (hty : n.node_type = NodeType.Error) :
    alGet k (g.cleanup_old_errors ts).nodes =
      (if n.last_update < ts - g.error_window_ms then none else some n) := by
  by_cases hexp : n.last_update < ts - g.error_window_ms
  · rw [if_pos hexp]
    exact (cleanup_removes_expired g ts k n hget hty hexp).1
  · rw [if_neg hexp]
    unfold StateGraph.cleanup_old_errors
    dsimp only
    have hnotin : ¬ k ∈ ((g.nodes.filter fun kv =>
        decide (kv.2.node_type = NodeType.Error ∧
          kv.2.last_update < ts - g.error_window_ms)).map (fun x => x.1)) := by
      intro hk
      obtain ⟨kv, hkv, hk1⟩ := List.mem_map.mp hk
      obtain ⟨hkvmem, hkvp⟩ := List.mem_filter.mp hkv
      rw [decide_eq_true_eq] at hkvp
      obtain ⟨a, b⟩ := kv
      dsimp only at hk1
      subst hk1
      have hb : alGet a g.nodes = some b := alGet_of_nodup_mem hnd hkvmem
      rw [hget] at hb
      injection hb with hb
      subst hb
      exact hexp hkvp.2
    have h1 : alGet k (g.nodes.filter fun kv =>
        decide (¬ kv.1 ∈ ((g.nodes.filter fun kv =>
          decide (kv.2.node_type = NodeType.Error ∧
            kv.2.last_update < ts - g.error_window_ms)).map (fun x => x.1)))) = some n := by
      refine alGet_filter_keep _ hget ?_
      rw [decide_eq_true_eq]
      exact hnotin
    refine alGet_filter_keep _ h1 ?_
    rw [decide_eq_true_eq]
    intro hkdead
    obtain ⟨kv, hkv, hk1⟩ := List.mem_map.mp hkdead
    obtain ⟨hkvmem, hkvp⟩ := List.mem_filter.mp hkv
    rw [decide_eq_true_eq] at hkvp
    obtain ⟨a, b⟩ := kv
    dsimp only at hk1
    subst hk1
    have hbmem : (a, b) ∈ g.nodes := List.mem_of_mem_filter hkvmem
    have hb : alGet a g.nodes = some b := alGet_of_nodup_mem hnd hbmem
    rw [hget] at hb
    injection hb with hb
    subst hb
    have := hkvp.1
    rw [hty] at this
    exact absurd this (by simp)

/-! ### The error handler when the error node already exists -/

theorem hee_nodes_of_present (g : StateGraph) (ev : Event)
    (h : (alGet ("error-" ++ ev.entity_id) g.nodes).isSome) :
    (g.handle_error_event ev).nodes = g.nodes := by
  unfold StateGraph.handle_error_event ensureNode
  dsimp only
  rw [if_pos h]

theorem hee_edges_shape (g : StateGraph) (ev : Event) :
    ∀ e ∈ (g.handle_error_event ev).edges, e ∈ g.edges ∨
      (e.edge_type = EdgeType.BlockedBy ∧ e.to_ = "error-" ++ ev.entity_id ∧
        ∃ e0 ∈ g.edges, e0.edge_type = EdgeType.Consumes ∧
          e0.to_ = ev.entity_id ∧ e.from_ = e0.from_) := by
  unfold StateGraph.handle_error_event
  dsimp only
  have main : ∀ (ps : List String) (es0 : List Edge),
      (∀ p ∈ ps, ∃ e0 ∈ g.edges, e0.edge_type = EdgeType.Consumes ∧
        e0.to_ = ev.entity_id ∧ p = e0.from_) →
      (∀ e ∈ es0, e ∈ g.edges ∨
        (e.edge_type = EdgeType.BlockedBy ∧ e.to_ = "error-" ++ ev.entity_id ∧
          ∃ e0 ∈ g.edges, e0.edge_type = EdgeType.Consumes ∧
            e0.to_ = ev.entity_id ∧ e.from_ = e0.from_)) →
      ∀ e ∈ ps.foldl (fun edges pid_str =>
          let edge_exists := edges.any fun e =>
            decide (e.edge_type = EdgeType.BlockedBy ∧ e.from_ = pid_str ∧
              e.to_ = "error-" ++ ev.entity_id)
          if edge_exists then edges
          else edges ++ [{ edge_type := EdgeType.BlockedBy, from_ := pid_str,
                           to_ := "error-" ++ ev.entity_id, ts := ev.ts }]) es0,
        e ∈ g.edges ∨
          (e.edge_type = EdgeType.BlockedBy ∧ e.to_ = "error-" ++ ev.entity_id ∧
            ∃ e0 ∈ g.edges, e0.edge_type = EdgeType.Consumes ∧
              e0.to_ = ev.entity_id ∧ e.from_ = e0.from_) := by
    intro ps
    induction ps with
    | nil =>
      intro es0 _ h e he
      exact h e he
    | cons p ps ih =>
      intro es0 hps h e he
      rw [List.foldl_cons] at he
      refine ih _ (fun q hq => hps q (List.mem_cons_of_mem _ hq)) ?_ e he
      intro e' he'
      dsimp only at he'
      split at he'
      · exact h e' he'
      · rcases List.mem_append.mp he' with hin | hnew
        · exact h e' hin
        · simp only [List.mem_singleton] at hnew
          subst hnew
          obtain ⟨e0, he0, ht0, hto0, hfr0⟩ := hps p (List.mem_cons_self _ _)
          exact Or.inr ⟨rfl, rfl, e0, he0, ht0, hto0, hfr0⟩
  refine main _ g.edges ?_ (fun e he => Or.inl he)
  intro q hq
  obtain ⟨e0, he0, hq0⟩ := List.mem_map.mp hq
  obtain ⟨he0mem, he0p⟩ := List.mem_filter.mp he0
  rw [decide_eq_true_eq] at he0p
  exact ⟨e0, he0mem, he0p.1, he0p.2, hq0.symm⟩

/-! ### Claim C10 -/

/-- C10: ingesting an error-family event for an entity whose error node
already exists leaves that node's `last_update`, `error_type` and all
other attributes unchanged (the handler only creates the node when it is
absent); consequently the node is removed by the post-ingest cleanup
exactly when the event's timestamp exceeds the node's original
`last_update` plus the error window, and every edge of the resulting
graph is either an old edge or a new `BlockedBy` edge pointing to that
error node.  (`hnd` is the `HashMap` key-uniqueness invariant.) -/
theorem C10_error_event_frame (g : StateGraph) (ev : Event) (n : Node)
    (hnd : (g.nodes.map Prod.fst).Nodup)
    (hkind : ev.event_type = EventType.ErrorHw ∨ ev.event_type = EventType.ErrorNet ∨
      ev.event_type = EventType.TopoLinkDown)
    (hget : alGet ("error-" ++ ev.entity_id) g.nodes = some n)
    (hty : n.node_type = NodeType.Error) :
    alGet ("error-" ++ ev.entity_id) (g.process_event ev).nodes =
      (if n.last_update < ev.ts - g.error_window_ms then none else some n) ∧
    ∀ e ∈ (g.process_event ev).edges, e ∈ g.edges ∨
      (e.edge_type = EdgeType.BlockedBy ∧ e.to_ = "error-" ++ ev.entity_id) := by
  have hdisp : g.dispatch_event ev = g.handle_error_event ev := by
    unfold StateGraph.dispatch_event StateGraph.handle_topo_event
    rcases hkind with h | h | h <;> rw [h]
  unfold StateGraph.process_event
  rw [hdisp]
  have hnodes : (g.handle_error_event ev).nodes = g.nodes :=
    hee_nodes_of_present g ev (by rw [hget]; rfl)
  constructor
  · have := cleanup_error_lookup (g.handle_error_event ev) ev.ts
      ("error-" ++ ev.entity_id) n (by rw [hnodes]; exact hnd)
      (by rw [hnodes]; exact hget) hty
    exact this
  · intro e he
    have he1 : e ∈ (g.handle_error_event ev).edges := cleanup_edges_sub _ _ e he
    rcases hee_edges_shape g ev e he1 with h | h
    · exact Or.inl h
    · exact Or.inr ⟨h.1, h.2.1⟩

/-- The duplicate error event used in the C10 witness. -/
def dupErrEvent : Event := mkEv 1030 EventType.ErrorHw "gpu-0" none none "XID_79"

/-- The error node created by S1 at `ts = 1020`. -/
def dupErrNode : Node :=
  { id := "error-gpu-0", node_type := NodeType.Error, last_update := 1020,
    metadata := [("error_type", "XID_79")] }

/-- C10 witness: ingesting a second identical `error.hw` event at
`ts = 1030` into the S1 graph leaves `error-gpu-0` untouched (its
`last_update` stays 1020) and adds at most `BlockedBy` edges to it. -/
theorem C10_error_event_frame_witness :
    alGet ("error-" ++ dupErrEvent.entity_id)
        ((runEvents S1).process_event dupErrEvent).nodes =
      (if dupErrNode.last_update < dupErrEvent.ts - (runEvents S1).error_window_ms
       then none else some dupErrNode) ∧
    ∀ e ∈ ((runEvents S1).process_event dupErrEvent).edges, e ∈ (runEvents S1).edges ∨
      (e.edge_type = EdgeType.BlockedBy ∧ e.to_ = "error-" ++ dupErrEvent.entity_id) :=
  C10_error_event_frame (runEvents S1) dupErrEvent dupErrNode (by decide)
    (Or.inl rfl) (by decide) rfl

/-! ### The remediation fix engine (`src/agent/src/exec/`) -/

/-- `ActionType` (`src/agent/src/exec/action.rs`).  `i32` signals and
`u64` limits are `Int`/`Nat`. -/
inductive ActionType where
  | Signal (signal : Int)
  | CgroupThrottle (cpu_quota : Option Nat) (memory_limit : Option Nat) (io_limit : Option Nat)
  | NetworkRestart (interface : String)
  | GracefulShutdown (signal : Int) (wait_seconds : Nat) (force_kill : Bool)
  | KillProcess
  | IsolateNode (reason : String)
  | CheckCheckpoint (checkpoint_dir : String)
  | Custom (command : String) (args : List String)
deriving DecidableEq, Repr

/-- `signal_name` (`action.rs` lines 145-156). -/
def signal_name (sig : Int) : String :=
  if sig = 1 then "SIGHUP" else if sig = 2 then "SIGINT"
  else if sig = 3 then "SIGQUIT" else if sig = 9 then "SIGKILL"
  else if sig = 10 then "SIGUSR1" else if sig = 12 then "SIGUSR2"
  else if sig = 15 then "SIGTERM" else "UNKNOWN"

/-- `ActionType::from_recommendation` (`action.rs` lines 32-101): the
keyword-to-action table; Rust's early returns become an if-else chain. -/
def ActionType.from_recommendation (text : String) : Option ActionType :=
  let text_lower := strToLower text
  if strHasSub text_lower "sigusr1" || strHasSub text_lower "checkpoint dump" ||
      strHasSub text_lower "触发 checkpoint" || strHasSub text_lower "保存 checkpoint" then
    some (ActionType.Signal 10)
  else if strHasSub text_lower "signal" && strHasSub text_lower "dump" then
    some (ActionType.Signal 10)
  else if strHasSub text_lower "xctl zap" || strHasSub text_lower "kill" ||
      strHasSub text_lower "终止进程" || strHasSub text_lower "清理" then
    some ActionType.KillProcess
  else if strHasSub text_lower "优雅" || strHasSub text_lower "graceful" ||
      (strHasSub text_lower "信号" && strHasSub text_lower "等待") then
    some (ActionType.GracefulShutdown 10 10 true)
  else if strHasSub text_lower "cgroup" || strHasSub text_lower "限流" ||
      strHasSub text_lower "限制" || strHasSub text_lower "throttle" then
    some (ActionType.CgroupThrottle (some 50000) none none)
  else if strHasSub text_lower "重启网卡" || strHasSub text_lower "restart network" ||
      strHasSub text_lower "网络接口" then
    let interface := if strHasSub text_lower "eth" then "eth0"
      else if strHasSub text_lower "eno" then "eno1" else "eth0"
    some (ActionType.NetworkRestart interface)
  else if strHasSub text_lower "隔离" || strHasSub text_lower "isolate" then
    some (ActionType.IsolateNode text)
  else if strHasSub text_lower "checkpoint" &&
      (strHasSub text_lower "检查" || strHasSub text_lower "check") then
    some (ActionType.CheckCheckpoint "/tmp/checkpoints")
  else none

/-- `ActionType::description` (`action.rs` lines 104-141). -/
def ActionType.description : ActionType → String
  | ActionType.Signal signal =>
    "发送信号 " ++ toString signal ++ " (" ++ signal_name signal ++ ")"
  | ActionType.CgroupThrottle cpu_quota memory_limit io_limit =>
    let parts :=
      (match cpu_quota with
       | some cpu => ["CPU: " ++ toString (cpu / 1000) ++ "%"]
       | none => []) ++
      (match memory_limit with
       | some mem => ["内存: " ++ toString (mem / 1024 / 1024) ++ "MB"]
       | none => []) ++
      (match io_limit with
       | some io_ => ["IO: " ++ toString (io_ / 1024 / 1024) ++ "MB/s"]
       | none => [])
    "Cgroup 限流: " ++ String.intercalate ", " parts
  | ActionType.NetworkRestart interface => "重启网络接口: " ++ interface
  | ActionType.GracefulShutdown signal wait_seconds force_kill =>
    "优雅降级: 发送信号 " ++ toString signal ++ "，等待 " ++ toString wait_seconds ++
      " 秒" ++ (if force_kill then "，然后强制终止" else "")
  | ActionType.KillProcess => "强制终止进程"
  | ActionType.IsolateNode reason => "隔离节点: " ++ reason
  | ActionType.CheckCheckpoint checkpoint_dir => "检查 Checkpoint: " ++ checkpoint_dir
  | ActionType.Custom command args => "执行命令: " ++ command ++ " " ++ String.intercalate " " args

/-- The priority table of `parse_recommendations`
(`src/agent/src/exec/fix_engine.rs` lines 84-93). -/
def actionPriority : ActionType → Nat
  | ActionType.Signal _ => 1
  | ActionType.GracefulShutdown _ _ _ => 2
  | ActionType.CgroupThrottle _ _ _ => 3
  | ActionType.CheckCheckpoint _ => 4
  | ActionType.NetworkRestart _ => 5
  | ActionType.IsolateNode _ => 6
  | ActionType.KillProcess => 10
  | ActionType.Custom _ _ => 7

/-- `parse_recommendations` (`fix_engine.rs` lines 78-101).  Rust's
`sort_by_key` is a stable sort; insertion sort with `≤` on the key is
extensionally that same function (stable sorts are unique). -/
def parse_recommendations (recommendations : List String) : List (ActionType × Nat) :=
  List.insertionSort (fun a b => a.2 ≤ b.2)
    (recommendations.filterMap fun t =>
      (ActionType.from_recommendation t).map fun action => (action, actionPriority action))

/-- `ExecutedAction` (`fix_engine.rs`). -/
structure ExecutedAction where
  action : String
  result : String
  priority : Nat
deriving DecidableEq, Repr

/-- `FailedAction` (`fix_engine.rs`). -/
structure FailedAction where
  action : String
  error : String
  priority : Nat
deriving DecidableEq, Repr

/-- `FixResult` (`fix_engine.rs`). -/
structure FixResult where
  success : Bool
  message : String
  executed_actions : List ExecutedAction
  failed_actions : List FailedAction
deriving DecidableEq, Repr

/-- `FixEngine::fix_from_analysis` (`fix_engine.rs` lines 21-75).  The
host-side `executor.execute(&action, pid)` is abstracted as the oracle
`exec`; the function only uses `result.recommended_actions` from the
analysis, which is passed directly. -/
def fix_from_analysis (exec : ActionType → Nat → Except String String)
    (recommended_actions : List String) (pid : Nat) : FixResult :=
  let actions := parse_recommendations recommended_actions
  if actions.isEmpty then
    { success := false, message := "没有可执行的动作",
      executed_actions := [], failed_actions := [] }
  else
    let ef := actions.foldl
      (fun (acc : List ExecutedAction × List FailedAction) ap =>
        match exec ap.1 pid with
        | Except.ok msg =>
          (acc.1 ++ [{ action := ap.1.description, result := msg, priority := ap.2 }], acc.2)
        | Except.error e =>
          (acc.1, acc.2 ++ [{ action := ap.1.description, error := e, priority := ap.2 }]))
      ([], [])
    let success := ef.2.isEmpty
    let message :=
      if success then "成功执行 " ++ toString ef.1.length ++ " 个动作"
      else "执行完成：" ++ toString ef.1.length ++ " 成功，" ++ toString ef.2.length ++ " 失败"
    { success := success, message := message,
      executed_actions := ef.1, failed_actions := ef.2 }

/-! ### Stable-sort facts for the fix engine -/

instance : IsTotal (ActionType × Nat) (fun a b => a.2 ≤ b.2) :=
  ⟨fun a b => Nat.le_total a.2 b.2⟩

instance : IsTrans (ActionType × Nat) (fun a b => a.2 ≤ b.2) :=
  ⟨fun _ _ _ => Nat.le_trans⟩

theorem filter_orderedInsert (k : Nat) (a : ActionType × Nat)
    (s : List (ActionType × Nat)) :
    (List.orderedInsert (fun a b => a.2 ≤ b.2) a s).filter (fun x => decide (x.2 = k)) =
      if a.2 = k then a :: s.filter (fun x => decide (x.2 = k))
      else s.filter (fun x => decide (x.2 = k)) := by
  induction s with
  | nil =>
    by_cases hak : a.2 = k <;> simp [List.orderedInsert, List.filter, hak]
  | cons b rest ih =>
    rw [List.orderedInsert]
    split
    · by_cases hak : a.2 = k <;> simp [List.filter_cons, hak]
    · rename_i hr
      have hba : b.2 < a.2 := Nat.lt_of_not_le hr
      by_cases hbk : b.2 = k
      · have hak : ¬ a.2 = k := by omega
        simp [List.filter_cons, hbk, hak, ih]
      · by_cases hak : a.2 = k <;> simp [List.filter_cons, hbk, hak, ih]

theorem filter_insertionSort (k : Nat) (l : List (ActionType × Nat)) :
    (List.insertionSort (fun a b => a.2 ≤ b.2) l).filter (fun x => decide (x.2 = k)) =
      l.filter (fun x => decide (x.2 = k)) := by
  induction l with
  | nil => rfl
  | cons a l ih =>
    rw [List.insertionSort, filter_orderedInsert]
    by_cases hak : a.2 = k <;> simp [List.filter_cons, hak, ih]

/-- The result message for a successful execution record. -/
def execRecordOf (exec : ActionType → Nat → Except String String) (pid : Nat)
    (ap : ActionType × Nat) : ExecutedAction :=
  { action := ap.1.description,
    result := (exec ap.1 pid).toOption.getD "",
    priority := ap.2 }

/-- The failure record for a failed execution. -/
def failRecordOf (exec : ActionType → Nat → Except String String) (pid : Nat)
    (ap : ActionType × Nat) : FailedAction :=
  { action := ap.1.description,
    error := (match exec ap.1 pid with | Except.ok _ => "" | Except.error e => e),
    priority := ap.2 }

theorem fix_fold_characterization (exec : ActionType → Nat → Except String String)
    (pid : Nat) (acts : List (ActionType × Nat))
    (acc : List ExecutedAction × List FailedAction) :
    acts.foldl
      (fun (acc : List ExecutedAction × List FailedAction) ap =>
        match exec ap.1 pid with
        | Except.ok msg =>
          (acc.1 ++ [{ action := ap.1.description, result := msg, priority := ap.2 }], acc.2)
        | Except.error e =>
          (acc.1, acc.2 ++ [{ action := ap.1.description, error := e, priority := ap.2 }]))
      acc =
    (acc.1 ++ (acts.filter fun ap => (exec ap.1 pid).isOk).map (execRecordOf exec pid),
     acc.2 ++ (acts.filter fun ap => !(exec ap.1 pid).isOk).map (failRecordOf exec pid)) := by
  induction acts generalizing acc with
  | nil => simp
  | cons a rest ih =>
    rw [List.foldl_cons]
    cases hx : exec a.1 pid with
    | ok msg =>
      rw [ih]
      have h1 : (exec a.1 pid).isOk = true := by rw [hx]; rfl
      have h2 : execRecordOf exec pid a =
          { action := a.1.description, result := msg, priority := a.2 } := by
        unfold execRecordOf
        rw [hx]
        rfl
      simp [List.filter_cons, h1, h2]
    | error e =>
      rw [ih]
      have h1 : (exec a.1 pid).isOk = false := by rw [hx]; rfl
      have h2 : failRecordOf exec pid a =
          { action := a.1.description, error := e, priority := a.2 } := by
        unfold failRecordOf
        rw [hx]
      simp [List.filter_cons, h1, h2]

theorem fix_executed_eq (exec : ActionType → Nat → Except String String)
    (recs : List String) (pid : Nat) :
    (fix_from_analysis exec recs pid).executed_actions =
      ((parse_recommendations recs).filter fun ap => (exec ap.1 pid).isOk).map
        (execRecordOf exec pid) := by
  unfold fix_from_analysis
  dsimp only
  split
  · rename_i h
    rw [List.isEmpty_iff.mp h]
    rfl
  · rw [fix_fold_characterization]
    simp

theorem fix_failed_eq (exec : ActionType → Nat → Except String String)
    (recs : List String) (pid : Nat) :
    (fix_from_analysis exec recs pid).failed_actions =
      ((parse_recommendations recs).filter fun ap => !(exec ap.1 pid).isOk).map
        (failRecordOf exec pid) := by
  unfold fix_from_analysis
  dsimp only
  split
  · rename_i h
    rw [List.isEmpty_iff.mp h]
    rfl
  · rw [fix_fold_characterization]
    simp

theorem fix_success_of_ne (exec : ActionType → Nat → Except String String)
    (recs : List String) (pid : Nat) (h : parse_recommendations recs ≠ []) :
    (fix_from_analysis exec recs pid).success =
      (fix_from_analysis exec recs pid).failed_actions.isEmpty := by
  unfold fix_from_analysis
  dsimp only
  split
  · rename_i h1
    exact absurd (List.isEmpty_iff.mp h1) h
  · rfl

theorem fix_of_empty (exec : ActionType → Nat → Except String String)
    (recs : List String) (pid : Nat) (h : parse_recommendations recs = []) :
    (fix_from_analysis exec recs pid).success = false ∧
      (fix_from_analysis exec recs pid).executed_actions = [] ∧
      (fix_from_analysis exec recs pid).failed_actions = [] := by
  unfold fix_from_analysis
  dsimp only
  rw [if_pos (by rw [h]; rfl)]
  exact ⟨rfl, rfl, rfl⟩

/-! ### Claim C7 -/

/-- C7 counterexample: when no recommendation text parses to an action,
`fix_from_analysis` reports `success = false` although the failed list
is also empty, so "overall success exactly when the failed list is
empty" fails on that input (`fix_engine.rs` lines 32-39 return early
with `success: false` and both lists empty). -/
theorem C7_counterexample :
    (fix_from_analysis (fun _ _ => Except.ok "done") ["do nothing relevant"] 1).success
        = false ∧
      (fix_from_analysis (fun _ _ => Except.ok "done") ["do nothing relevant"] 1).failed_actions
        = [] := by
  decide

/-- C7 (amended): the fix engine parses each recommended-action text via
the keyword table (texts that parse to no action are skipped),
stable-sorts the parsed actions by the priority table `actionPriority`
(Signal=1, GracefulShutdown=2, CgroupThrottle=3, CheckCheckpoint=4,
NetworkRestart=5, IsolateNode=6, Custom=7, KillProcess=10; lower first):
the result is sorted by priority and, per priority `k`, keeps the parse
order.  It executes every action sequentially — the executed and failed
lists are exactly the success- and failure-filtered action list in
order, so one action's failure never prevents later actions — and, when
at least one action parsed, reports overall success exactly when the
failed list is empty; when no action parses it reports failure with both
lists empty. -/
theorem C7_fix_engine_amended (exec : ActionType → Nat → Except String String)
    (recs : List String) (pid k : Nat) :
    List.Sorted (fun (a b : ActionType × Nat) => a.2 ≤ b.2) (parse_recommendations recs) ∧
    (parse_recommendations recs).filter (fun x => decide (x.2 = k)) =
      (recs.filterMap fun t => (ActionType.from_recommendation t).map
        fun action => (action, actionPriority action)).filter (fun x => decide (x.2 = k)) ∧
    (∀ ap ∈ parse_recommendations recs, ap.2 = actionPriority ap.1) ∧
    (fix_from_analysis exec recs pid).executed_actions =
      ((parse_recommendations recs).filter fun ap => (exec ap.1 pid).isOk).map
        (execRecordOf exec pid) ∧
    (fix_from_analysis exec recs pid).failed_actions =
      ((parse_recommendations recs).filter fun ap => !(exec ap.1 pid).isOk).map
        (failRecordOf exec pid) ∧
    (parse_recommendations recs ≠ [] →
      ((fix_from_analysis exec recs pid).success = true ↔
        (fix_from_analysis exec recs pid).failed_actions = [])) ∧
    (parse_recommendations recs = [] →
      (fix_from_analysis exec recs pid).success = false ∧
      (fix_from_analysis exec recs pid).executed_actions = [] ∧
      (fix_from_analysis exec recs pid).failed_actions = []) := by
  refine ⟨List.sorted_insertionSort _ _, filter_insertionSort k _, ?_, fix_executed_eq .., fix_failed_eq .., ?_, fun h => fix_of_empty exec recs pid h⟩
  · intro ap hap
    have hmem : ap ∈ (recs.filterMap fun t =>
        (ActionType.from_recommendation t).map
          fun action => (action, actionPriority action)) :=
      (List.perm_insertionSort _ _).mem_iff.mp hap
    obtain ⟨t, _, hmap⟩ := List.mem_filterMap.mp hmem
    obtain ⟨action, _, hpair⟩ := Option.map_eq_some'.mp hmap
    rw [← hpair]
  · intro hne
    rw [fix_success_of_ne exec recs pid hne]
    exact ⟨fun h => List.isEmpty_iff.mp h, fun h => by rw [h]; rfl⟩

/-- The execution oracle for the C7 witness: `KillProcess` fails,
everything else succeeds. -/
def exW : ActionType → Nat → Except String String := fun a _ =>
  match a with
  | ActionType.KillProcess => Except.error "no permission"
  | _ => Except.ok "ok"

/-- The recommendation texts for the C7 witness. -/
def recsW : List String := ["graceful fallback", "kill process", "throttle cgroup"]

/-- C7 witness: the amended statement at a concrete plan whose
`KillProcess` step fails. -/
theorem C7_fix_engine_amended_witness :
    List.Sorted (fun (a b : ActionType × Nat) => a.2 ≤ b.2) (parse_recommendations recsW) ∧
    ((fix_from_analysis exW recsW 7).success = true ↔
      (fix_from_analysis exW recsW 7).failed_actions = []) := by
  have h := C7_fix_engine_amended exW recsW 7 10
  exact ⟨h.1, h.2.2.2.2.2.1 (by decide)⟩

/-! ### The Hub forwarder's edge roll-up filter (`src/agent/src/hub_forwarder.rs`) -/

/-- The roll-up memory of `HubForwarder`: `forwarded_bindings`
(a `HashSet<(u32, String)>`, modelled as a list used through membership)
and `last_util_values` (a `HashMap<(u32, String), f64>`). -/
structure HubForwarder where
  forwarded_bindings : List (Nat × String)
  last_util_values : List ((Nat × String) × ℚ)
deriving DecidableEq, Repr

/-- `HubForwarder::should_forward` (`hub_forwarder.rs` lines 148-224),
returning the decision together with the updated roll-up memory. -/
def should_forward (fwd : HubForwarder) (event : Event) : Bool × HubForwarder :=
  match event.event_type with
  | EventType.ErrorHw | EventType.ErrorNet => (true, fwd)
  | EventType.ProcessState => (true, fwd)
  | EventType.TransportDrop => (true, fwd)
  | EventType.TopoLinkDown => (true, fwd)
  | EventType.ComputeUtil | EventType.ComputeMem =>
    match event.pid with
    | some pid =>
      let binding_key := (pid, event.entity_id)
      if ¬ binding_key ∈ fwd.forwarded_bindings then
        let fwd1 := { fwd with forwarded_bindings := binding_key :: fwd.forwarded_bindings }
        let fwd2 :=
          match parseF event.value with
          | some util =>
            { fwd1 with last_util_values := alInsert binding_key util fwd1.last_util_values }
          | none => fwd1
        (true, fwd2)
      else
        match parseF event.value with
        | some current_util =>
          match alGet binding_key fwd.last_util_values with
          | some last_util =>
            if (last_util > 80 ∧ current_util < 1) ∨ (last_util < 1 ∧ current_util > 80) then
              (true, { fwd with
                last_util_values := alInsert binding_key current_util fwd.last_util_values })
            else (false, fwd)
          | none => (false, fwd)
        | none => (false, fwd)
    | none => (false, fwd)
  | EventType.StorageIops | EventType.StorageQDepth =>
    match event.pid with
    | some pid =>
      let binding_key := (pid, event.entity_id)
      if ¬ binding_key ∈ fwd.forwarded_bindings then
        (true, { fwd with forwarded_bindings := binding_key :: fwd.forwarded_bindings })
      else (false, fwd)
    | none => (false, fwd)
  | EventType.TransportBw =>
    match event.pid with
    | some pid =>
      let binding_key := (pid, event.entity_id)
      if ¬ binding_key ∈ fwd.forwarded_bindings then
        (true, { fwd with forwarded_bindings := binding_key :: fwd.forwarded_bindings })
      else (false, fwd)
    | none => (false, fwd)
  | _ => (false, fwd)

/-- The empty roll-up memory of `HubForwarder::new`. -/
def HubForwarder.new : HubForwarder :=
  { forwarded_bindings := [], last_util_values := [] }

/-- Run `should_forward` over a sequence, collecting the decisions. -/
def forwardDecisions (fwd : HubForwarder) : List Event → List Bool
  | [] => []
  | e :: rest =>
    let df := should_forward fwd e
    df.1 :: forwardDecisions df.2 rest

/-- The S5 scenario: ten `compute.util` events for pid 3 on `gpu-1`. -/
def tenUtilEvents : List Event :=
  [ mkEv 5000 EventType.ComputeUtil "gpu-1" none (some 3) "70",
    mkEv 5001 EventType.ComputeUtil "gpu-1" none (some 3) "71",
    mkEv 5002 EventType.ComputeUtil "gpu-1" none (some 3) "72",
    mkEv 5003 EventType.ComputeUtil "gpu-1" none (some 3) "73",
    mkEv 5004 EventType.ComputeUtil "gpu-1" none (some 3) "74",
    mkEv 5005 EventType.ComputeUtil "gpu-1" none (some 3) "72",
    mkEv 5006 EventType.ComputeUtil "gpu-1" none (some 3) "73",
    mkEv 5007 EventType.ComputeUtil "gpu-1" none (some 3) "75",
    mkEv 5008 EventType.ComputeUtil "gpu-1" none (some 3) "76",
    mkEv 5009 EventType.ComputeUtil "gpu-1" none (some 3) "77" ]

/-! ### Claim C8 -/

/-- C8: for `compute.util`/`compute.mem` events carrying a pid, the
roll-up filter forwards the first event per `(pid, entity_id)` binding;
afterwards it forwards exactly when the value parses, a last utilization
was recorded, and they form a sharp transition (last > 80 and current
< 1, or last < 1 and current > 80).  In particular, of the ten S5
`compute.util` events for pid 3 on `gpu-1` only the first is forwarded. -/
theorem C8_rollup_filter :
    (∀ (fwd : HubForwarder) (ev : Event) (p : Nat),
      (ev.event_type = EventType.ComputeUtil ∨ ev.event_type = EventType.ComputeMem) →
      ev.pid = some p → ¬ (p, ev.entity_id) ∈ fwd.forwarded_bindings →
      (should_forward fwd ev).1 = true) ∧
    (∀ (fwd : HubForwarder) (ev : Event) (p : Nat),
      (ev.event_type = EventType.ComputeUtil ∨ ev.event_type = EventType.ComputeMem) →
      ev.pid = some p → (p, ev.entity_id) ∈ fwd.forwarded_bindings →
      ((should_forward fwd ev).1 = true ↔
        ∃ last_util current_util,
          alGet (p, ev.entity_id) fwd.last_util_values = some last_util ∧
          parseF ev.value = some current_util ∧
          ((last_util > 80 ∧ current_util < 1) ∨ (last_util < 1 ∧ current_util > 80)))) ∧
    forwardDecisions HubForwarder.new tenUtilEvents =
      [true, false, false, false, false, false, false, false, false, false] := by
  refine ⟨?_, ?_, ?_⟩
  · intro fwd ev p hk hp hmem
    rcases hk with hk | hk <;>
      (unfold should_forward
       rw [hk]
       dsimp only
       rw [hp]
       dsimp only
       rw [if_pos hmem])
  · intro fwd ev p hk hp hmem
    have hcond : ¬ ¬ (p, ev.entity_id) ∈ fwd.forwarded_bindings := not_not_intro hmem
    rcases hk with hk | hk <;>
      (unfold should_forward
       rw [hk]
       dsimp only
       rw [hp]
       dsimp only
       rw [if_neg hcond]
       cases hcur : parseF ev.value with
       | none =>
         dsimp only
         constructor
         · intro h
           exact absurd h (by simp)
         · rintro ⟨l, c, hl, hc, ht⟩
           exact Option.noConfusion hc
       | some current_util =>
         dsimp only
         cases hlast : alGet (p, ev.entity_id) fwd.last_util_values with
         | none =>
           dsimp only
           constructor
           · intro h
             exact absurd h (by simp)
           · rintro ⟨l, c, hl, hc, ht⟩
             exact Option.noConfusion hl
         | some last_util =>
           dsimp only
           by_cases htr : (last_util > 80 ∧ current_util < 1) ∨
               (last_util < 1 ∧ current_util > 80)
           · rw [if_pos htr]
             constructor
             · intro _
               exact ⟨last_util, current_util, rfl, rfl, htr⟩
             · intro _
               rfl
           · rw [if_neg htr]
             constructor
             · intro h
               exact absurd h (by simp)
             · rintro ⟨l, c, hl, hc, ht⟩
               cases hl
               cases hc
               exact absurd ht htr)
  · decide

/-- C8 witness: the roll-up rules at concrete inputs — a fresh binding
forwards, and the repeat-event rule instantiated at `last = 70`,
`current = 71`. -/
theorem C8_rollup_filter_witness :
    (should_forward HubForwarder.new
      (mkEv 5000 EventType.ComputeUtil "gpu-1" none (some 3) "70")).1 = true ∧
    ((should_forward
        { forwarded_bindings := [(3, "gpu-1")],
          last_util_values := [((3, "gpu-1"), (70 : ℚ))] }
        (mkEv 5001 EventType.ComputeUtil "gpu-1" none (some 3) "71")).1 = true ↔
      ∃ last_util current_util,
        alGet (3, "gpu-1") [((3, "gpu-1"), (70 : ℚ))] = some last_util ∧
        parseF "71" = some current_util ∧
        ((last_util > 80 ∧ current_util < 1) ∨ (last_util < 1 ∧ current_util > 80))) :=
  ⟨C8_rollup_filter.1 HubForwarder.new _ 3 (Or.inl rfl) rfl (by decide),
   C8_rollup_filter.2.1 _ _ 3 (Or.inl rfl) rfl (by decide)⟩

/-! ### The fault-to-quarantine translator (`src/hub/src/k8s_controller.rs`) -/

/-- `IrreversibleFault` (`k8s_controller.rs` lines 21-30). -/
inductive IrreversibleFault where
  | PersistentXidError (node_id : String) (gpu_id : String) (xid_code : String)
  | RdmaLinkDown (node_id : String) (interface : String)
  | StorageDeviceFailure (node_id : String) (device : String)
  | OtherHardwareFailure (node_id : String) (reason : String)
deriving DecidableEq, Repr

/-- The fault's `node_id` (the match at `k8s_controller.rs` lines 118-123). -/
def IrreversibleFault.nodeId : IrreversibleFault → String
  | IrreversibleFault.PersistentXidError n _ _ => n
  | IrreversibleFault.RdmaLinkDown n _ => n
  | IrreversibleFault.StorageDeviceFailure n _ => n
  | IrreversibleFault.OtherHardwareFailure n _ => n

/-- The controller's state: `processed_nodes` maps node ids to the
`Instant` (in ms) of the last completed handling; `cooldown_duration`
defaults to 300 000 ms; `enabled` gates all orchestrator action. -/
structure K8sController where
  processed_nodes : List (String × Nat)
  cooldown_duration : Nat
  enabled : Bool
deriving DecidableEq, Repr

/-- One orchestrator invocation. -/
inductive OrchCall where
  | TaintNode (node_id : String)
  | EvictPods (node_id : String)
deriving DecidableEq, Repr

/-- The orchestrator oracle: outcomes of the Kubernetes calls
`taint_node` and `evict_pods_on_node` (`Nat` = evicted pod count). -/
structure Orchestrator where
  taint_node : String → IrreversibleFault → Except String Unit
  evict_pods_on_node : String → Except String Nat

/-- `K8sController::handle_irreversible_fault` (`k8s_controller.rs`
lines 112-172): returns the call result, the state after the call and
the orchestrator calls made, in order.  `now` models `Instant::now()`
at the call; `last_time.elapsed()` is `now - last_time`.  On taint
failure the source returns the error BEFORE recording the handling
time; on eviction failure it only logs and proceeds to record it. -/
def handle_irreversible_fault (c : K8sController) (orch : Orchestrator)
    (fault : IrreversibleFault) (now : Nat) :
    Except String Unit × K8sController × List OrchCall :=
  if ¬ c.enabled then (Except.ok (), c, [])
  else
    let node_id := fault.nodeId
    let suppressed : Bool :=
      match alGet node_id c.processed_nodes with
      | some last_time => decide (now - last_time < c.cooldown_duration)
      | none => false
    if suppressed then (Except.ok (), c, [])
    else
      match orch.taint_node node_id fault with
      | Except.error e => (Except.error e, c, [OrchCall.TaintNode node_id])
      | Except.ok _ =>
        let calls := [OrchCall.TaintNode node_id, OrchCall.EvictPods node_id]
        let c' := { c with processed_nodes := alInsert node_id now c.processed_nodes }
        match orch.evict_pods_on_node node_id with
        | Except.ok _ => (Except.ok (), c', calls)
        | Except.error _ => (Except.ok (), c', calls)

/-! ### Claim C9 -/

/-- The concrete controller, failing-taint orchestrator and fault for
the C9 counterexample. -/
def ctrW : K8sController :=
  { processed_nodes := [], cooldown_duration := 300000, enabled := true }

/-- Orchestrator whose taint call always fails. -/
def orchFailTaint : Orchestrator :=
  { taint_node := fun _ _ => Except.error "api down",
    evict_pods_on_node := fun _ => Except.ok 0 }

/-- The fault handled in the C9 counterexample and witness. -/
def fltW : IrreversibleFault :=
  IrreversibleFault.PersistentXidError "node-a" "gpu-0" "XID_79"

/-- C9 counterexample: when tainting fails, the source returns the
error before inserting into `processed_nodes`, so the cool-down is NOT
armed: a repeated fault for the same node 1 s later (well within the
5-minute window) calls the orchestrator again, contradicting the claim
that no further orchestrator calls happen. -/
theorem C9_counterexample :
    (handle_irreversible_fault ctrW orchFailTaint fltW 1000).2.1 = ctrW ∧
    (handle_irreversible_fault
        (handle_irreversible_fault ctrW orchFailTaint fltW 1000).2.1
        orchFailTaint fltW 2000).2.2 = [OrchCall.TaintNode "node-a"] := by
  decide

/-- C9 (amended): for an enabled controller handling a non-suppressed
fault: if the taint call fails, the error is returned, the state is
unchanged (the cool-down is NOT armed) and only the taint call was made
— so a repeated fault will call the orchestrator again; if the taint
call succeeds, then whatever the eviction outcome (in particular when
eviction fails, which is only logged) the handling time is recorded and
any repeated fault for the same node within the cool-down window
triggers no further orchestrator calls. -/
theorem C9_cooldown_amended (c : K8sController) (orch : Orchestrator)
    (fault : IrreversibleFault) (now : Nat)
    (henabled : c.enabled = true)
    (hfree : ∀ t, alGet fault.nodeId c.processed_nodes = some t →
      c.cooldown_duration ≤ now - t) :
    (∀ e, orch.taint_node fault.nodeId fault = Except.error e →
      handle_irreversible_fault c orch fault now =
        (Except.error e, c, [OrchCall.TaintNode fault.nodeId])) ∧
    (orch.taint_node fault.nodeId fault = Except.ok () →
      (handle_irreversible_fault c orch fault now).1 = Except.ok () ∧
      (handle_irreversible_fault c orch fault now).2.1.processed_nodes =
        alInsert fault.nodeId now c.processed_nodes ∧
      (handle_irreversible_fault c orch fault now).2.2 =
        [OrchCall.TaintNode fault.nodeId, OrchCall.EvictPods fault.nodeId] ∧
      (∀ (orch2 : Orchestrator) (fault2 : IrreversibleFault) (now2 : Nat),
        fault2.nodeId = fault.nodeId →
        now2 - now < c.cooldown_duration →
        handle_irreversible_fault (handle_irreversible_fault c orch fault now).2.1
            orch2 fault2 now2 =
          (Except.ok (), (handle_irreversible_fault c orch fault now).2.1, []))) := by
  have hne : ¬ ¬ c.enabled = true := not_not_intro henabled
  have hsup :
      (match alGet fault.nodeId c.processed_nodes with
        | some last_time => decide (now - last_time < c.cooldown_duration)
        | none => false) = false := by
    cases hget : alGet fault.nodeId c.processed_nodes with
    | none => rfl
    | some t =>
      dsimp only
      rw [decide_eq_false_iff_not]
      have := hfree t hget
      omega
  constructor
  · intro e htaint
    unfold handle_irreversible_fault
    rw [if_neg hne]
    dsimp only
    rw [if_neg (by rw [hsup]; simp)]
    rw [htaint]
  · intro htaint
    have hmain : ∀ res, orch.evict_pods_on_node fault.nodeId = res →
        handle_irreversible_fault c orch fault now =
          (Except.ok (),
           { c with processed_nodes := alInsert fault.nodeId now c.processed_nodes },
           [OrchCall.TaintNode fault.nodeId, OrchCall.EvictPods fault.nodeId]) := by
      intro res hres
      unfold handle_irreversible_fault
      rw [if_neg hne]
      dsimp only
      rw [if_neg (by rw [hsup]; simp)]
      rw [htaint]
      dsimp only
      cases hres2 : orch.evict_pods_on_node fault.nodeId <;> rfl
    have h1 := hmain (orch.evict_pods_on_node fault.nodeId) rfl
    rw [h1]
    refine ⟨rfl, rfl, rfl, ?_⟩
    intro orch2 fault2 now2 hid hwin
    unfold handle_irreversible_fault
    rw [if_neg (by dsimp only; rw [henabled]; exact not_not_intro rfl)]
    dsimp only
    rw [hid]
    rw [if_pos ?side]
    case side =>
      dsimp only
      rw [alGet_alInsert_self]
      exact decide_eq_true hwin

/-- C9 witness: the amended statement instantiated with a succeeding
taint and a failing eviction on a fresh node. -/
def orchFailEvict : Orchestrator :=
  { taint_node := fun _ _ => Except.ok (),
    evict_pods_on_node := fun _ => Except.error "PDB violation" }

/-- C9 witness: taint succeeds, eviction fails, the cool-down is armed
anyway and a repeat 1 s later makes no orchestrator calls. -/
theorem C9_cooldown_amended_witness :
    (handle_irreversible_fault ctrW orchFailEvict fltW 1000).1 = Except.ok () ∧
    (handle_irreversible_fault ctrW orchFailEvict fltW 1000).2.1.processed_nodes =
      alInsert "node-a" 1000 [] ∧
    (handle_irreversible_fault ctrW orchFailEvict fltW 1000).2.2 =
      [OrchCall.TaintNode "node-a", OrchCall.EvictPods "node-a"] ∧
    handle_irreversible_fault (handle_irreversible_fault ctrW orchFailEvict fltW 1000).2.1
        orchFailEvict fltW 2000 =
      (Except.ok (), (handle_irreversible_fault ctrW orchFailEvict fltW 1000).2.1, []) := by
  have h := (C9_cooldown_amended ctrW orchFailEvict fltW 1000 rfl
      (fun t ht => Option.noConfusion ht)).2 rfl
  exact ⟨h.1, h.2.1, h.2.2.1, h.2.2.2 orchFailEvict fltW 2000 rfl (by decide)⟩

/-! ### Hub WebSocket ingress (`src/hub/src/main.rs`) and the namespaced
core graph ids -/

/-- The per-event ingress rewrite of `handle_connection`
(`src/hub/src/main.rs` lines 179-222): if the incoming event carries a
`node_id`, the session rebinds its registry key to it and the event is
ingested unchanged; otherwise the event inherits the session's current
key.  Returns the session key after the event and the event as
ingested. -/
def hubRewrite (session_node_id : String) (event : Event) : String × Event :=
  match event.node_id with
  | some event_node_id => (event_node_id, event)
  | none => (session_node_id, { event with node_id := some session_node_id })

/-- Modelled from the spec: `core/src/graph.rs` — the
`ark_core::graph::StateGraph` that the Hub ingests into, with Hub
namespacing and `find_root_cause_by_id` — is declared in
`core/src/lib.rs` but its source is not under `src/`.  Per the spec
(§3 and §4.7), "every graph id is prefixed `<node_id>::`" when the
event's `node_id` is set.  `nsPrefix` is that prefix. -/
def nsPrefix (event : Event) : String :=
  match event.node_id with
  | some n => n ++ "::"
  | none => ""

/-- Modelled from the spec: the graph ids the namespaced core graph
derives from one event (`core/src/graph.rs` is not under `src/`): the
process id `pid-<n>` when a pid is carried, the resource id
`entity_id`, and the error id `error-<entity>` for error-family events,
each prefixed with `nsPrefix`. -/
def coreGraphIds (event : Event) : List String :=
  (match event.pid with
   | some pid => [nsPrefix event ++ ("pid-" ++ toString pid)]
   | none => []) ++
  ([nsPrefix event ++ event.entity_id] ++
  (match event.event_type with
   | EventType.ErrorHw | EventType.ErrorNet | EventType.TopoLinkDown =>
     [nsPrefix event ++ ("error-" ++ event.entity_id)]
   | _ => []))

theorem colon_split_inj (la : List Char) (lx : List Char) :
    ∀ (lb ly : List Char), ¬ ':' ∈ la → ¬ ':' ∈ lb →
    la ++ ':' :: lx = lb ++ ':' :: ly → la = lb := by
  induction la with
  | nil =>
    intro lb ly _ hb h
    cases lb with
    | nil => rfl
    | cons b0 lb' =>
      rw [List.nil_append, List.cons_append] at h
      injection h with h1 h2
      exact absurd (h1 ▸ List.mem_cons_self b0 lb') hb
  | cons a0 la' ih =>
    intro lb ly ha hb h
    cases lb with
    | nil =>
      rw [List.nil_append, List.cons_append] at h
      injection h with h1 h2
      exact absurd (h1 ▸ List.mem_cons_self a0 la') ha
    | cons b0 lb' =>
      rw [List.cons_append, List.cons_append] at h
      injection h with h1 h2
      have ha' : ¬ ':' ∈ la' := fun hmem => ha (List.mem_cons_of_mem _ hmem)
      have hb' : ¬ ':' ∈ lb' := fun hmem => hb (List.mem_cons_of_mem _ hmem)
      rw [h1, ih lb' ly ha' hb' h2]

theorem ns_prefix_inj {m m' r r' : String}
    (hm : ¬ ':' ∈ m.data) (hm' : ¬ ':' ∈ m'.data)
    (h : (m ++ "::") ++ r = (m' ++ "::") ++ r') : m = m' := by
  have hd := congrArg String.data h
  rw [strDataAppend, strDataAppend, strDataAppend, strDataAppend] at hd
  have h2 : ("::" : String).data = [':', ':'] := rfl
  rw [h2, List.append_assoc, List.append_assoc] at hd
  simp only [List.cons_append, List.nil_append] at hd
  exact String.ext (colon_split_inj m.data _ m'.data _ hm hm' hd)

/-! ### Claim C5 -/

/-- C5 (spec-modelled): for every event received over a Hub WebSocket
session, after the ingress rewrite the event's `node_id` is set, every
graph id the (spec-modelled) namespaced core graph derives from it is
prefixed `<node_id>::`, and — provided agent node ids contain no colon,
as hostnames and the synthetic `node-<ip>` keys do — events whose
rewritten `node_id`s differ never derive a common graph id. -/
theorem C5_hub_namespacing (sess : String) (ev : Event) :
    (hubRewrite sess ev).2.node_id.isSome = true ∧
    (∀ id ∈ coreGraphIds (hubRewrite sess ev).2,
      ∃ rest, id = (((hubRewrite sess ev).2.node_id.getD "") ++ "::") ++ rest) ∧
    (∀ (sess' : String) (ev' : Event),
      (hubRewrite sess ev).2.node_id ≠ (hubRewrite sess' ev').2.node_id →
      ¬ ':' ∈ ((hubRewrite sess ev).2.node_id.getD "").data →
      ¬ ':' ∈ ((hubRewrite sess' ev').2.node_id.getD "").data →
      ∀ id ∈ coreGraphIds (hubRewrite sess ev).2,
        ∀ id' ∈ coreGraphIds (hubRewrite sess' ev').2, id ≠ id') := by
  have hsome : ∀ (s : String) (e : Event), ∃ m, (hubRewrite s e).2.node_id = some m := by
    intro s e
    unfold hubRewrite
    cases h : e.node_id with
    | some v => exact ⟨v, h⟩
    | none => exact ⟨s, rfl⟩
  have hform : ∀ (s : String) (e : Event), ∀ id ∈ coreGraphIds (hubRewrite s e).2,
      ∃ rest, id = (((hubRewrite s e).2.node_id.getD "") ++ "::") ++ rest := by
    intro s e id hid
    obtain ⟨m, hm⟩ := hsome s e
    have hpre : nsPrefix (hubRewrite s e).2 =
        ((hubRewrite s e).2.node_id.getD "") ++ "::" := by
      unfold nsPrefix
      rw [hm]
      rfl
    unfold coreGraphIds at hid
    rw [hpre] at hid
    rcases List.mem_append.mp hid with h1 | h1
    · rcases hp : (hubRewrite s e).2.pid with _ | p
      · rw [hp] at h1; simp at h1
      · rw [hp] at h1
        simp only [List.mem_singleton] at h1
        exact ⟨_, h1⟩
    · rcases List.mem_append.mp h1 with h2 | h2
      · simp only [List.mem_singleton] at h2
        exact ⟨_, h2⟩
      · rcases hkind : (hubRewrite s e).2.event_type <;> rw [hkind] at h2 <;>
          simp only [List.mem_singleton] at h2 <;> first
          | exact ⟨_, h2⟩
          | simp at h2
  refine ⟨?_, hform sess ev, ?_⟩
  · obtain ⟨m, hm⟩ := hsome sess ev
    rw [hm]
    rfl
  · intro sess' ev' hne hc hc' id hid id' hid' heq
    obtain ⟨r, hr⟩ := hform sess ev id hid
    obtain ⟨r', hr'⟩ := hform sess' ev' id' hid'
    rw [hr, hr'] at heq
    have hmm := ns_prefix_inj hc hc' heq
    obtain ⟨m, hm⟩ := hsome sess ev
    obtain ⟨m', hm'⟩ := hsome sess' ev'
    apply hne
    rw [hm, hm'] at hmm ⊢
    exact congrArg some hmm

/-- The two ingress events for the C5 witness: one carries its own
`node_id`, the other inherits the session key. -/
def evA : Event :=
  { ts := 10, event_type := EventType.ErrorHw, entity_id := "gpu-0",
    job_id := none, pid := some 1, value := "XID_79", node_id := some "node-a" }

/-- The second ingress event for the C5 witness (no `node_id`). -/
def evB : Event :=
  { ts := 11, event_type := EventType.ComputeUtil, entity_id := "gpu-0",
    job_id := none, pid := some 1, value := "90", node_id := none }

/-- C5 witness: the namespacing statement at two concrete sessions —
both rewritten events carry a `node_id`, and the resource id that
`node-a` derives for `gpu-0` differs from the one `node-b` derives. -/
theorem C5_hub_namespacing_witness :
    (hubRewrite "node-fallback" evA).2.node_id.isSome = true ∧
    (hubRewrite "node-b" evB).2.node_id.isSome = true ∧
    (nsPrefix (hubRewrite "node-fallback" evA).2 ++ "gpu-0" : String) ≠
      nsPrefix (hubRewrite "node-b" evB).2 ++ "gpu-0" :=
  ⟨(C5_hub_namespacing "node-fallback" evA).1,
   (C5_hub_namespacing "node-b" evB).1,
   (C5_hub_namespacing "node-fallback" evA).2.2 "node-b" evB (by decide)
     (by decide) (by decide)
     (nsPrefix (hubRewrite "node-fallback" evA).2 ++ "gpu-0") (by decide)
     (nsPrefix (hubRewrite "node-b" evB).2 ++ "gpu-0") (by decide)⟩

/-! ### More lemmas about the map helpers (for the graph invariant) -/

theorem mem_alInsert {V : Type} {kv : String × V} {k : String} {v : V}
    {l : List (String × V)} (h : kv ∈ alInsert k v l) : kv = (k, v) ∨ kv ∈ l := by
  induction l with
  | nil => simpa [alInsert] using h
  | cons kv' rest ih =>
    obtain ⟨a, b⟩ := kv'
    by_cases ha : a = k
    · subst ha
      simp only [alInsert, if_pos rfl] at h
      rcases List.mem_cons.mp h with h1 | h1
      · exact Or.inl h1
      · exact Or.inr (List.mem_cons_of_mem _ h1)
    · simp only [alInsert, if_neg ha] at h
      rcases List.mem_cons.mp h with h1 | h1
      · exact Or.inr (h1 ▸ List.mem_cons_self _ _)
      · rcases ih h1 with h2 | h2
        · exact Or.inl h2
        · exact Or.inr (List.mem_cons_of_mem _ h2)

theorem alGet_alInsert_isSome {V : Type} {k k' : String} {v : V}
    {l : List (String × V)} (h : (alGet k l).isSome = true) :
    (alGet k (alInsert k' v l)).isSome = true := by
  by_cases hk : k = k'
  · subst hk
    rw [alGet_alInsert_self]
    rfl
  · rw [alGet_alInsert_ne _ _ hk]
    exact h

theorem alGet_ensure_isSome_mono {k id : String} {n : Node}
    {l : List (String × Node)} (h : (alGet k l).isSome = true) :
    (alGet k (ensureNode id n l)).isSome = true := by
  unfold ensureNode
  split
  · exact h
  · exact alGet_alInsert_isSome h

theorem alGet_ensure_self_isSome (id : String) (n : Node)
    (l : List (String × Node)) : (alGet id (ensureNode id n l)).isSome = true := by
  unfold ensureNode
  split
  · assumption
  · rw [alGet_alInsert_self]
    rfl

theorem alGet_updateNode_isSome {k id : String} {f : Node → Node}
    {l : List (String × Node)} (h : (alGet k l).isSome = true) :
    (alGet k (updateNode id f l)).isSome = true := by
  unfold updateNode
  split
  · exact alGet_alInsert_isSome h
  · exact h

theorem mem_ensureNode {kv : String × Node} {id : String} {n : Node}
    {l : List (String × Node)} (h : kv ∈ ensureNode id n l) :
    kv = (id, n) ∨ kv ∈ l := by
  unfold ensureNode at h
  split at h
  · exact Or.inr h
  · exact mem_alInsert h

theorem mem_updateNode {kv : String × Node} {id : String} {f : Node → Node}
    {l : List (String × Node)} (h : kv ∈ updateNode id f l) :
    (∃ n0, alGet id l = some n0 ∧ kv = (id, f n0)) ∨ kv ∈ l := by
  unfold updateNode at h
  split at h
  · rename_i n0 hn0
    rcases mem_alInsert h with h1 | h1
    · exact Or.inl ⟨n0, hn0, h1⟩
    · exact Or.inr h1
  · exact Or.inr h

theorem alGet_updateNode_self {id : String} {f : Node → Node} {n : Node}
    {l : List (String × Node)} (h : alGet id l = some n) :
    alGet id (updateNode id f l) = some (f n) := by
  unfold updateNode
  rw [h]
  exact alGet_alInsert_self id (f n) l

/-! ### The structural graph invariant needed for claim C2 -/

/-- Structural invariant of every reachable graph: every edge's `from_`
endpoint is a `pid-` id with a present node; every `pid-`-shaped `to_`
endpoint has a present node; every `Error`-typed node's key is an
`error-` id. -/
def GraphInv (g : StateGraph) : Prop :=
  (∀ e ∈ g.edges, (∃ t, e.from_ = "pid-" ++ t) ∧ (alGet e.from_ g.nodes).isSome = true) ∧
  (∀ e ∈ g.edges, ∀ t, e.to_ = "pid-" ++ t → (alGet e.to_ g.nodes).isSome = true) ∧
  (∀ kv ∈ g.nodes, kv.2.node_type = NodeType.Error → ∃ t, kv.1 = "error-" ++ t)

/-- `NodesP4 l`: every `Error`-typed node's key is an `error-` id. -/
def NodesP4 (l : List (String × Node)) : Prop :=
  ∀ kv ∈ l, kv.2.node_type = NodeType.Error → ∃ t, kv.1 = "error-" ++ t

theorem NodesP4_alInsert {l : List (String × Node)} {k : String} {v : Node}
    (h : NodesP4 l) (hv : v.node_type = NodeType.Error → ∃ t, k = "error-" ++ t) :
    NodesP4 (alInsert k v l) := by
  intro kv hkv herr
  rcases mem_alInsert hkv with h1 | h1
  · subst h1
    exact hv herr
  · exact h kv h1 herr

theorem NodesP4_ensure {l : List (String × Node)} {id : String} {n : Node}
    (h : NodesP4 l) (hv : n.node_type = NodeType.Error → ∃ t, id = "error-" ++ t) :
    NodesP4 (ensureNode id n l) := by
  intro kv hkv herr
  rcases mem_ensureNode hkv with h1 | h1
  · subst h1
    exact hv herr
  · exact h kv h1 herr

theorem NodesP4_update {l : List (String × Node)} {id : String} {f : Node → Node}
    (h : NodesP4 l) (hf : ∀ n, (f n).node_type = n.node_type) :
    NodesP4 (updateNode id f l) := by
  intro kv hkv herr
  rcases mem_updateNode hkv with ⟨n0, hn0, hkveq⟩ | h1
  · subst hkveq
    have hn0err : n0.node_type = NodeType.Error := by rw [← hf n0]; exact herr
    exact h (id, n0) (alGet_mem hn0) hn0err
  · exact h kv h1 herr

theorem inv_hps (g : StateGraph) (ev : Event) (h : GraphInv g) :
    GraphInv (g.handle_process_state ev) := by
  obtain ⟨h1, h2, h3⟩ := h
  unfold StateGraph.handle_process_state
  cases hp : ev.pid with
  | none => exact ⟨h1, h2, h3⟩
  | some p =>
    dsimp only
    split
    · refine ⟨?_, ?_, ?_⟩
      · intro e he
        obtain ⟨hex, hsome⟩ := h1 e he
        exact ⟨hex, alGet_alInsert_isSome hsome⟩
      · intro e he t ht
        exact alGet_alInsert_isSome (h2 e he t ht)
      · exact NodesP4_alInsert h3 (fun herr => absurd herr (by exact fun hc => NodeType.noConfusion hc))
    · split
      · refine ⟨?_, ?_, ?_⟩
        · intro e he
          obtain ⟨hex, hsome⟩ := h1 e he
          exact ⟨hex, alGet_updateNode_isSome hsome⟩
        · intro e he t ht
          exact alGet_updateNode_isSome (h2 e he t ht)
        · exact NodesP4_update h3 (fun n => rfl)
      · exact ⟨h1, h2, h3⟩

theorem inv_hce (g : StateGraph) (ev : Event) (h : GraphInv g) :
    GraphInv (g.handle_compute_event ev) := by
  obtain ⟨h1, h2, h3⟩ := h
  unfold StateGraph.handle_compute_event
  cases hp : ev.pid with
  | none =>
    dsimp only
    refine ⟨?_, ?_, ?_⟩
    · intro e he
      obtain ⟨hex, hsome⟩ := h1 e he
      exact ⟨hex, alGet_updateNode_isSome (alGet_ensure_isSome_mono hsome)⟩
    · intro e he t ht
      exact alGet_updateNode_isSome (alGet_ensure_isSome_mono (h2 e he t ht))
    · exact NodesP4_update
        (NodesP4_ensure h3 (fun herr => absurd herr (fun hc => NodeType.noConfusion hc)))
        (fun n => rfl)
  | some p =>
    dsimp only
    have hsome3 : ∀ k, (alGet k g.nodes).isSome = true →
        (alGet k (ensureNode ("pid-" ++ toString p)
          { id := "pid-" ++ toString p, node_type := NodeType.Process,
            last_update := ev.ts, metadata := [] }
          (updateNode ev.entity_id
            (fun node =>
              { node with
                metadata := alInsert "util" ev.value node.metadata,
                last_update := ev.ts })
            (ensureNode ev.entity_id
              { id := ev.entity_id, node_type := NodeType.Resource,
                last_update := ev.ts, metadata := [] } g.nodes)))).isSome = true := by
      intro k hk
      exact alGet_ensure_isSome_mono (alGet_updateNode_isSome (alGet_ensure_isSome_mono hk))
    refine ⟨?_, ?_, ?_⟩
    · intro e he
      dsimp only at he
      split at he
      · obtain ⟨hex, hsome⟩ := h1 e he
        exact ⟨hex, hsome3 _ hsome⟩
      · rcases List.mem_append.mp he with hin | hnew
        · obtain ⟨hex, hsome⟩ := h1 e hin
          exact ⟨hex, hsome3 _ hsome⟩
        · simp only [List.mem_singleton] at hnew
          subst hnew
          exact ⟨⟨toString p, rfl⟩, alGet_ensure_self_isSome _ _ _⟩
    · intro e he t ht
      dsimp only at he
      split at he
      · exact hsome3 _ (h2 e he t ht)
      · rcases List.mem_append.mp he with hin | hnew
        · exact hsome3 _ (h2 e hin t ht)
        · simp only [List.mem_singleton] at hnew
          subst hnew
          have : (alGet ev.entity_id (updateNode ev.entity_id
              (fun node =>
                { node with
                  metadata := alInsert "util" ev.value node.metadata,
                  last_update := ev.ts })
              (ensureNode ev.entity_id
                { id := ev.entity_id, node_type := NodeType.Resource,
                  last_update := ev.ts, metadata := [] } g.nodes))).isSome = true :=
            alGet_updateNode_isSome (alGet_ensure_self_isSome _ _ _)
          exact alGet_ensure_isSome_mono this
    · exact NodesP4_ensure
        (NodesP4_update
          (NodesP4_ensure h3 (fun herr => absurd herr (fun hc => NodeType.noConfusion hc)))
          (fun n => rfl))
        (fun herr => absurd herr (fun hc => NodeType.noConfusion hc))

theorem inv_hte (g : StateGraph) (ev : Event) (h : GraphInv g) :
    GraphInv (g.handle_transport_event ev) := by
  obtain ⟨h1, h2, h3⟩ := h
  unfold StateGraph.handle_transport_event
  cases hp : ev.pid with
  | none =>
    dsimp only
    refine ⟨?_, ?_, ?_⟩
    · intro e he
      obtain ⟨hex, hsome⟩ := h1 e he
      exact ⟨hex, alGet_updateNode_isSome (alGet_ensure_isSome_mono hsome)⟩
    · intro e he t ht
      exact alGet_updateNode_isSome (alGet_ensure_isSome_mono (h2 e he t ht))
    · exact NodesP4_update
        (NodesP4_ensure h3 (fun herr => absurd herr (fun hc => NodeType.noConfusion hc)))
        (fun n => rfl)
  | some p =>
    dsimp only
    split
    · refine ⟨?_, ?_, ?_⟩
      · intro e he
        dsimp only at he
        split at he
        · obtain ⟨hex, hsome⟩ := h1 e he
          exact ⟨hex, alGet_ensure_isSome_mono
            (alGet_updateNode_isSome (alGet_ensure_isSome_mono hsome))⟩
        · rcases List.mem_append.mp he with hin | hnew
          · obtain ⟨hex, hsome⟩ := h1 e hin
            exact ⟨hex, alGet_ensure_isSome_mono
              (alGet_updateNode_isSome (alGet_ensure_isSome_mono hsome))⟩
          · simp only [List.mem_singleton] at hnew
            subst hnew
            exact ⟨⟨toString p, rfl⟩, alGet_ensure_self_isSome _ _ _⟩
      · intro e he t ht
        dsimp only at he
        split at he
        · exact alGet_ensure_isSome_mono
            (alGet_updateNode_isSome (alGet_ensure_isSome_mono (h2 e he t ht)))
        · rcases List.mem_append.mp he with hin | hnew
          · exact alGet_ensure_isSome_mono
              (alGet_updateNode_isSome (alGet_ensure_isSome_mono (h2 e hin t ht)))
          · simp only [List.mem_singleton] at hnew
            subst hnew
            exact alGet_ensure_isSome_mono
              (alGet_updateNode_isSome (alGet_ensure_self_isSome _ _ _))
      · exact NodesP4_ensure
          (NodesP4_update
            (NodesP4_ensure h3 (fun herr => absurd herr (fun hc => NodeType.noConfusion hc)))
            (fun n => rfl))
          (fun herr => absurd herr (fun hc => NodeType.noConfusion hc))
    · refine ⟨?_, ?_, ?_⟩
      · intro e he
        obtain ⟨hex, hsome⟩ := h1 e he
        exact ⟨hex, alGet_updateNode_isSome (alGet_ensure_isSome_mono hsome)⟩
      · intro e he t ht
        exact alGet_updateNode_isSome (alGet_ensure_isSome_mono (h2 e he t ht))
      · exact NodesP4_update
          (NodesP4_ensure h3 (fun herr => absurd herr (fun hc => NodeType.noConfusion hc)))
          (fun n => rfl)

theorem inv_hee (g : StateGraph) (ev : Event) (h : GraphInv g) :
    GraphInv (g.handle_error_event ev) := by
  obtain ⟨h1, h2, h3⟩ := h
  have hn : (g.handle_error_event ev).nodes =
      ensureNode ("error-" ++ ev.entity_id)
        { id := "error-" ++ ev.entity_id, node_type := NodeType.Error,
          last_update := ev.ts, metadata := alInsert "error_type" ev.value [] }
        g.nodes := rfl
  refine ⟨?_, ?_, ?_⟩
  · intro e he
    rcases hee_edges_shape g ev e he with hin | ⟨_, _, e0, he0, _, _, hfr⟩
    · obtain ⟨hex, hsome⟩ := h1 e hin
      rw [hn]
      exact ⟨hex, alGet_ensure_isSome_mono hsome⟩
    · obtain ⟨hex, hsome⟩ := h1 e0 he0
      rw [hn, hfr]
      exact ⟨hfr ▸ hex, alGet_ensure_isSome_mono hsome⟩
  · intro e he t ht
    rcases hee_edges_shape g ev e he with hin | ⟨_, hto, _⟩
    · rw [hn]
      exact alGet_ensure_isSome_mono (h2 e hin t ht)
    · rw [ht] at hto
      exact absurd hto (pid_ne_error_key t ev.entity_id)
  · intro kv hkv herr
    rw [hn] at hkv
    exact NodesP4_ensure h3 (fun _ => ⟨ev.entity_id, rfl⟩) kv hkv herr

theorem inv_cleanup (g : StateGraph) (ts : Nat) (h : GraphInv g) :
    GraphInv (g.cleanup_old_errors ts) := by
  obtain ⟨h1, h2, h3⟩ := h
  have herrids : ∀ id ∈ ((g.nodes.filter fun kv =>
      decide (kv.2.node_type = NodeType.Error ∧
        kv.2.last_update < ts - g.error_window_ms)).map (fun x => x.1)),
      ∃ t, id = "error-" ++ t := by
    intro id hid
    obtain ⟨kv, hkv, hkid⟩ := List.mem_map.mp hid
    obtain ⟨hmem, hp⟩ := List.mem_filter.mp hkv
    rw [decide_eq_true_eq] at hp
    exact hkid ▸ h3 kv hmem hp.1
  unfold StateGraph.cleanup_old_errors
  dsimp only
  refine ⟨?_, ?_, ?_⟩
  · intro e he
    obtain ⟨he1, hdead⟩ := List.mem_filter.mp he
    rw [decide_eq_true_eq] at hdead
    obtain ⟨heg, _⟩ := List.mem_filter.mp he1
    obtain ⟨hex, hsome⟩ := h1 e heg
    obtain ⟨v, hv⟩ := Option.isSome_iff_exists.mp hsome
    refine ⟨hex, ?_⟩
    have hk1 : alGet e.from_ (g.nodes.filter fun kv =>
        decide (¬ kv.1 ∈ ((g.nodes.filter fun kv =>
          decide (kv.2.node_type = NodeType.Error ∧
            kv.2.last_update < ts - g.error_window_ms)).map (fun x => x.1)))) = some v := by
      refine alGet_filter_keep _ hv ?_
      rw [decide_eq_true_eq]
      intro hbad
      obtain ⟨t0, ht0⟩ := herrids _ hbad
      obtain ⟨t1, ht1⟩ := hex
      exact pid_ne_error_key t1 t0 (ht1 ▸ ht0 ▸ rfl)
    rw [alGet_filter_keep _ hk1 (by rw [decide_eq_true_eq]; exact hdead.1)]
    rfl
  · intro e he t ht
    obtain ⟨he1, hdead⟩ := List.mem_filter.mp he
    rw [decide_eq_true_eq] at hdead
    obtain ⟨heg, _⟩ := List.mem_filter.mp he1
    have hsome := h2 e heg t ht
    obtain ⟨v, hv⟩ := Option.isSome_iff_exists.mp hsome
    have hk1 : alGet e.to_ (g.nodes.filter fun kv =>
        decide (¬ kv.1 ∈ ((g.nodes.filter fun kv =>
          decide (kv.2.node_type = NodeType.Error ∧
            kv.2.last_update < ts - g.error_window_ms)).map (fun x => x.1)))) = some v := by
      refine alGet_filter_keep _ hv ?_
      rw [decide_eq_true_eq]
      intro hbad
      obtain ⟨t0, ht0⟩ := herrids _ hbad
      exact pid_ne_error_key t t0 (ht ▸ ht0 ▸ rfl)
    rw [alGet_filter_keep _ hk1 (by rw [decide_eq_true_eq]; exact hdead.2)]
    rfl
  · intro kv hkv herr
    exact h3 kv (List.mem_of_mem_filter (List.mem_of_mem_filter hkv)) herr

theorem inv_dispatch (g : StateGraph) (ev : Event) (h : GraphInv g) :
    GraphInv (g.dispatch_event ev) := by
  unfold StateGraph.dispatch_event StateGraph.handle_storage_event
    StateGraph.handle_topo_event
  cases ev.event_type <;>
    first
      | exact h
      | exact inv_hps g ev h
      | exact inv_hce g ev h
      | exact inv_hte g ev h
      | exact inv_hee g ev h

theorem inv_process_event (g : StateGraph) (ev : Event) (h : GraphInv g) :
    GraphInv (g.process_event ev) :=
  inv_cleanup _ _ (inv_dispatch g ev h)

theorem inv_runEvents (es : List Event) : GraphInv (runEvents es) := by
  have hnew : GraphInv StateGraph.new := by
    refine ⟨?_, ?_, ?_⟩
    · intro e he
      exact absurd he (List.not_mem_nil e)
    · intro e he
      exact absurd he (List.not_mem_nil e)
    · intro kv hkv
      exact absurd hkv (List.not_mem_nil kv)
  have main : ∀ (l : List Event) (g : StateGraph), GraphInv g →
      GraphInv (g.ingestAll l) := by
    intro l
    induction l with
    | nil => intro g hg; exact hg
    | cons e rest ih =>
      intro g hg
      exact ih _ (inv_process_event g e hg)
  exact main es StateGraph.new hnew

/-- Cleanup removes a process node explicitly marked dead, together with
every edge touching it. -/
theorem cleanup_removes_dead (g : StateGraph) (ts : Nat) (k : String) (n : Node)
    (hget : alGet k g.nodes = some n)
    (hdead : deadProcess (ts - 10 * 60 * 1000) n)
    (hkerr : ∀ t, k ≠ "error-" ++ t)
    (hp4 : NodesP4 g.nodes) :
    alGet k (g.cleanup_old_errors ts).nodes = none ∧
      ∀ e ∈ (g.cleanup_old_errors ts).edges, e.from_ ≠ k ∧ e.to_ ≠ k := by
  unfold StateGraph.cleanup_old_errors
  dsimp only
  have hknotin : ¬ k ∈ ((g.nodes.filter fun kv =>
      decide (kv.2.node_type = NodeType.Error ∧
        kv.2.last_update < ts - g.error_window_ms)).map (fun x => x.1)) := by
    intro hk
    obtain ⟨kv, hkv, hkid⟩ := List.mem_map.mp hk
    obtain ⟨hmem, hp⟩ := List.mem_filter.mp hkv
    rw [decide_eq_true_eq] at hp
    obtain ⟨t, ht⟩ := hp4 kv hmem hp.1
    exact hkerr t (hkid ▸ ht)
  have hk1 : alGet k (g.nodes.filter fun kv =>
      decide (¬ kv.1 ∈ ((g.nodes.filter fun kv =>
        decide (kv.2.node_type = NodeType.Error ∧
          kv.2.last_update < ts - g.error_window_ms)).map (fun x => x.1)))) = some n := by
    refine alGet_filter_keep _ hget ?_
    rw [decide_eq_true_eq]
    exact hknotin
  have hkdead : k ∈ (((g.nodes.filter fun kv =>
      decide (¬ kv.1 ∈ ((g.nodes.filter fun kv =>
        decide (kv.2.node_type = NodeType.Error ∧
          kv.2.last_update < ts - g.error_window_ms)).map (fun x => x.1)))).filter fun kv =>
      decide (deadProcess (ts - 10 * 60 * 1000) kv.2)).map (fun x => x.1)) := by
    refine List.mem_map.mpr ⟨(k, n), ?_, rfl⟩
    refine List.mem_filter.mpr ⟨alGet_mem hk1, ?_⟩
    rw [decide_eq_true_eq]
    exact hdead
  constructor
  · apply alGet_filter_none
    intro kv hp hk1eq
    rw [decide_eq_true_eq] at hp
    exact hp (hk1eq ▸ hkdead)
  · intro e he
    obtain ⟨he1, hkeep⟩ := List.mem_filter.mp he
    rw [decide_eq_true_eq] at hkeep
    exact ⟨fun hf => hkeep.1 (hf ▸ hkdead), fun ht => hkeep.2 (ht ▸ hkdead)⟩

/-! ### Claim C2 -/

/-- C2 counterexample: an entity literally named `pid-7` creates a
`Resource`-typed node with that id; a later `process.state exit` event
for pid 7 marks it but `cleanup_old_errors` only removes `Process`-typed
nodes, so the node `pid-7` (and the `Consumes` edge pointing at it)
survive the exit event. -/
theorem C2_counterexample :
    alGet "pid-7" (runEvents
      [ mkEv 1 EventType.ComputeUtil "pid-7" none (some 3) "50",
        mkEv 2 EventType.ProcessState "proc-x" none (some 7) "exit" ]).nodes ≠ none ∧
    ∃ e ∈ (runEvents
      [ mkEv 1 EventType.ComputeUtil "pid-7" none (some 3) "50",
        mkEv 2 EventType.ProcessState "proc-x" none (some 7) "exit" ]).edges,
      e.to_ = "pid-7" := by
  decide

/-- C2 (amended): for every event sequence and pid `p`, provided the
node `pid-p` — when present — is a `Process` node (i.e. `pid-p` is not
concurrently in use as a resource entity id), immediately after
ingesting a `process.state` event for `p` with value `exit` or `zombie`
the graph contains no node `pid-p` and no edge whose `from` or `to`
endpoint is `pid-p`. -/
theorem C2_exit_removes_amended (es : List Event) (p : Nat) (ev : Event)
    (hkind : ev.event_type = EventType.ProcessState)
    (hpid : ev.pid = some p)
    (hval : ev.value = "exit" ∨ ev.value = "zombie")
    (hres : (alGet ("pid-" ++ toString p) (runEvents es).nodes).all
            (fun n => n.node_type == NodeType.Process) = true) :
    alGet ("pid-" ++ toString p) ((runEvents es).process_event ev).nodes = none ∧
      ∀ e ∈ ((runEvents es).process_event ev).edges,
        e.from_ ≠ "pid-" ++ toString p ∧ e.to_ ≠ "pid-" ++ toString p := by
  obtain ⟨h1, h2, h3⟩ := inv_runEvents es
  have hdisp : (runEvents es).dispatch_event ev =
      (runEvents es).handle_process_state ev := by
    unfold StateGraph.dispatch_event
    rw [hkind]
  unfold StateGraph.process_event
  rw [hdisp]
  have hvalns : ¬ ev.value = "start" := by
    rcases hval with h | h <;> rw [h] <;> exact (by decide)
  have hnodes : ((runEvents es).handle_process_state ev).nodes =
      updateNode ("pid-" ++ toString p)
        (fun node =>
          { node with
            metadata := alInsert "state" ev.value node.metadata,
            last_update := ev.ts }) (runEvents es).nodes := by
    unfold StateGraph.handle_process_state
    rw [hpid]
    dsimp only
    rw [if_neg hvalns, if_pos hval]
  have hedges : ((runEvents es).handle_process_state ev).edges =
      (runEvents es).edges := by
    unfold StateGraph.handle_process_state
    rw [hpid]
    dsimp only
    rw [if_neg hvalns, if_pos hval]
  cases halg : alGet ("pid-" ++ toString p) (runEvents es).nodes with
  | some n =>
    have hn_type : n.node_type = NodeType.Process := by
      rw [halg] at hres
      simpa [Option.all] using hres
    have hget : alGet ("pid-" ++ toString p)
        ((runEvents es).handle_process_state ev).nodes =
        some { n with
               metadata := alInsert "state" ev.value n.metadata,
               last_update := ev.ts } := by
      rw [hnodes]
      exact alGet_updateNode_self halg
    have hdead : deadProcess (ev.ts - 10 * 60 * 1000)
        { n with
          metadata := alInsert "state" ev.value n.metadata,
          last_update := ev.ts } := by
      refine ⟨hn_type, Or.inl ?_⟩
      dsimp only
      rw [alGet_alInsert_self]
      rcases hval with h | h
      · exact Or.inl (by rw [h])
      · exact Or.inr (by rw [h])
    have hp4 : NodesP4 ((runEvents es).handle_process_state ev).nodes :=
      (inv_hps (runEvents es) ev ⟨h1, h2, h3⟩).2.2
    exact cleanup_removes_dead _ ev.ts _ _ hget hdead
      (fun t h => pid_ne_error_key (toString p) t h) hp4
  | none =>
    have hnone : alGet ("pid-" ++ toString p)
        ((runEvents es).handle_process_state ev).nodes = none := by
      rw [hnodes]
      unfold updateNode
      rw [halg]
      exact halg
    constructor
    · unfold StateGraph.cleanup_old_errors
      dsimp only
      exact alGet_none_filter _ (alGet_none_filter _ hnone)
    · intro e he
      have he1 : e ∈ ((runEvents es).handle_process_state ev).edges :=
        cleanup_edges_sub _ _ e he
      rw [hedges] at he1
      constructor
      · intro hf
        have := (h1 e he1).2
        rw [hf, halg] at this
        exact Bool.noConfusion this
      · intro ht
        have := h2 e he1 (toString p) ht
        rw [ht, halg] at this
        exact Bool.noConfusion this

/-- The exit event of scenario S3. -/
def exitEv : Event := mkEv 1100 EventType.ProcessState "proc-1" none (some 1) "exit"

/-- C2 witness: after S1 and the S3 exit event for pid 1, the node
`pid-1` is gone and (since its `Consumes`/`BlockedBy` edges were the
only edges) the edge list is empty. -/
theorem C2_exit_removes_amended_witness :
    alGet "pid-1" ((runEvents S1).process_event exitEv).nodes = none ∧
      ((runEvents S1).process_event exitEv).edges = [] :=
  ⟨(C2_exit_removes_amended S1 1 exitEv rfl rfl (Or.inl rfl) (by decide)).1,
   by decide⟩

/-! ### Machinery for claim C6: replaying a batch over its own result.

The second ingestion of a batch `s` is simulated in lockstep with a
replay of the first: `G` replays `s` from the empty graph while `H`
replays `s` over the fully ingested graph `G1 = runEvents s`.  The
relation `SIM` ties the two: `H` keeps `G1`'s key set and edges, and at
every key the metadata of `H` is the metadata of `G1` overlaid with the
keys the replay prefix `G` has already written. -/

/-- Two graphs with equal fields are equal. -/
theorem sgEq (a b : StateGraph) (h1 : a.nodes = b.nodes) (h2 : a.edges = b.edges)
    (h3 : a.error_window_ms = b.error_window_ms) : a = b := by
  cases a
  cases b
  rw [StateGraph.mk.injEq]
  exact ⟨h1, h2, h3⟩

theorem ensure_of_isSome {id : String} {n : Node} {l : List (String × Node)}
    (h : (alGet id l).isSome = true) : ensureNode id n l = l := by
  unfold ensureNode
  rw [if_pos h]

theorem updateNode_of_get {id : String} {f : Node → Node} {n : Node}
    {l : List (String × Node)} (h : alGet id l = some n) :
    updateNode id f l = alInsert id (f n) l := by
  unfold updateNode
  rw [h]

theorem alGet_alInsert_isSome_eq {V : Type} {k k' : String} {v : V}
    {l : List (String × V)} (h : (alGet k' l).isSome = true) :
    (alGet k (alInsert k' v l)).isSome = (alGet k l).isSome := by
  by_cases hk : k = k'
  · subst hk
    rw [alGet_alInsert_self, h]
    rfl
  · rw [alGet_alInsert_ne _ _ hk]

theorem alGet_updateNode_isSome_eq {k id : String} {f : Node → Node}
    {l : List (String × Node)} :
    (alGet k (updateNode id f l)).isSome = (alGet k l).isSome := by
  unfold updateNode
  cases h : alGet id l with
  | none => rfl
  | some n =>
    by_cases hk : k = id
    · subst hk
      rw [alGet_alInsert_self, h]
      rfl
    · rw [alGet_alInsert_ne _ _ hk]

/-- The metadata value the replay exposes at key `mk`: the replayed
prefix's value when that prefix has written `mk`, else the value of the
fully ingested graph's node `n3`. -/
def overlay (n1o : Option Node) (n3 : Node) (mk : String) : Option String :=
  match n1o with
  | some n1 =>
    match alGet mk n1.metadata with
    | some v => some v
    | none => alGet mk n3.metadata
  | none => alGet mk n3.metadata

theorem overlay_self (n3 : Node) (mk : String) :
    overlay (some n3) n3 mk = alGet mk n3.metadata := by
  unfold overlay
  split
  next v heq =>
    cases heq
    split
    next w heq2 => rw [heq2]
    next heq2 => rfl
  next heq => exact Option.noConfusion heq

/-- Node-level simulation: same node kind as the once-ingested node
`n3`; error nodes agree with `n3` outright, other nodes either agree
with the replay prefix's node outright (after an unconditional rewrite)
or read through the `overlay`. -/
def SIMnode (n1o : Option Node) (n2 n3 : Node) : Prop :=
  n2.node_type = n3.node_type ∧
  (n3.node_type = NodeType.Error →
    ∀ mk, alGet mk n2.metadata = alGet mk n3.metadata) ∧
  (¬ n3.node_type = NodeType.Error →
    (∃ n1, n1o = some n1 ∧ n2.metadata = n1.metadata) ∨
    (∀ mk, alGet mk n2.metadata = overlay n1o n3 mk))

/-- Every node carries a batch timestamp and is not in an exited state:
under these, `cleanup_old_errors` at a batch timestamp removes nothing
when the whole batch lies within the five-minute error window. -/
def luState (s : List Event) (n : Node) : Prop :=
  (∃ e ∈ s, n.last_update = e.ts) ∧
  ¬ alGet "state" n.metadata = some "exit" ∧
  ¬ alGet "state" n.metadata = some "zombie"

/-- The lockstep simulation between the replay `G` of the batch from
the empty graph and the second ingestion `H` of the batch over the
fully ingested graph `G1`. -/
def SIM (s : List Event) (G1 G H : StateGraph) : Prop :=
  G.error_window_ms = 5 * 60 * 1000 ∧
  H.error_window_ms = 5 * 60 * 1000 ∧
  H.edges = G1.edges ∧
  (∀ kv ∈ G.nodes, luState s kv.2) ∧
  (∀ kv ∈ H.nodes, luState s kv.2) ∧
  (∀ k : String, (alGet k H.nodes).isSome = (alGet k G1.nodes).isSome) ∧
  (∀ k n2, alGet k H.nodes = some n2 →
    ∃ n3, alGet k G1.nodes = some n3 ∧ SIMnode (alGet k G.nodes) n2 n3)

/-- The graph has a node at `k` that is not an error node. -/
def nodePresentNonErr (G1 : StateGraph) (k : String) : Bool :=
  match alGet k G1.nodes with
  | some n => n.node_type != NodeType.Error
  | none => false

/-- The graph has a node at `k` of kind `t`. -/
def nodePresentTy (G1 : StateGraph) (k : String) (t : NodeType) : Bool :=
  match alGet k G1.nodes with
  | some n => n.node_type == t
  | none => false

/-- The edge list has an edge of the given kind and endpoints. -/
def hasEdgeB (E : List Edge) (ty : EdgeType) (f t : String) : Bool :=
  E.any fun ed => ed.edge_type == ty && ed.from_ == f && ed.to_ == t

/-- `true` when the fully ingested graph already carries every node and
edge that the event's handler would ensure, so that replaying the event
over it creates nothing new. -/
def touchedOKb (G1 : StateGraph) (e : Event) : Bool :=
  match e.event_type with
  | EventType.ComputeUtil | EventType.ComputeMem =>
    nodePresentNonErr G1 e.entity_id &&
    (match e.pid with
     | some p =>
       (alGet ("pid-" ++ toString p) G1.nodes).isSome &&
       hasEdgeB G1.edges EdgeType.Consumes ("pid-" ++ toString p) e.entity_id
     | none => true)
  | EventType.TransportBw =>
    nodePresentNonErr G1 e.entity_id &&
    (match e.pid with
     | some p =>
       if strHasSub e.value "IO_WAIT" || decide ((parseF e.value).getD 1000 < 1) then
         (alGet ("pid-" ++ toString p) G1.nodes).isSome &&
         hasEdgeB G1.edges EdgeType.WaitsOn ("pid-" ++ toString p) e.entity_id
       else true
     | none => true)
  | EventType.TransportDrop =>
    nodePresentNonErr G1 e.entity_id &&
    (match e.pid with
     | some p =>
       (alGet ("pid-" ++ toString p) G1.nodes).isSome &&
       hasEdgeB G1.edges EdgeType.WaitsOn ("pid-" ++ toString p) e.entity_id
     | none => true)
  | EventType.StorageIops | EventType.StorageQDepth =>
    nodePresentNonErr G1 e.entity_id
  | EventType.ProcessState =>
    (match e.pid with
     | some p =>
       if e.value == "start" then
         nodePresentTy G1 ("pid-" ++ toString p) NodeType.Process
       else true
     | none => true)
  | EventType.ErrorHw | EventType.ErrorNet | EventType.TopoLinkDown =>
    nodePresentTy G1 ("error-" ++ e.entity_id) NodeType.Error &&
    ((G1.edges.filter fun ed =>
        ed.edge_type == EdgeType.Consumes && ed.to_ == e.entity_id).all
      fun ed => hasEdgeB G1.edges EdgeType.BlockedBy ed.from_ ("error-" ++ e.entity_id))
  | _ => true

theorem nodePresentNonErr_spec {G1 : StateGraph} {k : String}
    (h : nodePresentNonErr G1 k = true) :
    ∃ n, alGet k G1.nodes = some n ∧ ¬ n.node_type = NodeType.Error := by
  unfold nodePresentNonErr at h
  split at h
  next n heq => exact ⟨n, heq, by simpa using h⟩
  next heq => exact Bool.noConfusion h

theorem nodePresentTy_spec {G1 : StateGraph} {k : String} {t : NodeType}
    (h : nodePresentTy G1 k t = true) :
    ∃ n, alGet k G1.nodes = some n ∧ n.node_type = t := by
  unfold nodePresentTy at h
  split at h
  next n heq => exact ⟨n, heq, by simpa using h⟩
  next heq => exact Bool.noConfusion h

theorem hasEdgeB_spec {E : List Edge} {ty : EdgeType} {f t : String}
    (h : hasEdgeB E ty f t = true) :
    ∃ ed ∈ E, ed.edge_type = ty ∧ ed.from_ = f ∧ ed.to_ = t := by
  unfold hasEdgeB at h
  obtain ⟨ed, hmem, hp⟩ := List.any_eq_true.mp h
  simp only [Bool.and_eq_true, beq_iff_eq] at hp
  exact ⟨ed, hmem, hp.1.1, hp.1.2, hp.2⟩

/-- A left fold whose step fixes the accumulator on every list element
fixes the accumulator. -/
theorem foldl_id_of {α β : Type} (f : β → α → β) (E : β) (l : List α)
    (h : ∀ a ∈ l, f E a = E) : l.foldl f E = E := by
  induction l with
  | nil => rfl
  | cons x xs ih =>
    rw [List.foldl_cons, h x (List.mem_cons_self x xs)]
    exact ih (fun a ha => h a (List.mem_cons_of_mem _ ha))

theorem cleanup_window (g : StateGraph) (ts : Nat) :
    (g.cleanup_old_errors ts).error_window_ms = g.error_window_ms := rfl

theorem ingest_window (l : List Event) :
    ∀ G : StateGraph, (G.ingestAll l).error_window_ms = G.error_window_ms := by
  induction l with
  | nil => intro G; rfl
  | cons e rest ih =>
    intro G
    show ((G.process_event e).ingestAll rest).error_window_ms = _
    rw [ih]
    show ((G.dispatch_event e).cleanup_old_errors e.ts).error_window_ms = _
    rw [cleanup_window, dispatch_window]

theorem runEvents_window (l : List Event) :
    (runEvents l).error_window_ms = 5 * 60 * 1000 :=
  ingest_window l StateGraph.new

theorem filter_not_mem_nil_nodes (l : List (String × Node)) :
    (l.filter fun kv => decide (¬ kv.1 ∈ ([] : List String))) = l := by
  rw [List.filter_eq_self]
  intro kv _
  simp

theorem filter_edges_nil1 (l : List Edge) :
    (l.filter fun e => decide (¬ (e.edge_type = EdgeType.BlockedBy ∧
      e.to_ ∈ ([] : List String)))) = l := by
  rw [List.filter_eq_self]
  intro e _
  simp

theorem filter_edges_nil2 (l : List Edge) :
    (l.filter fun e => decide (¬ e.from_ ∈ ([] : List String) ∧
      ¬ e.to_ ∈ ([] : List String))) = l := by
  rw [List.filter_eq_self]
  intro e _
  simp

/-- When every node's timestamp is a batch timestamp, no node is in an
exited state, and the cleanup instant is itself a batch timestamp with
the whole batch inside one five-minute window, the cleanup pass is the
identity. -/
theorem cleanup_id (s : List Event) (G : StateGraph) (ts : Nat)
    (hw : G.error_window_ms = 5 * 60 * 1000)
    (hts : ∃ e ∈ s, ts = e.ts)
    (Hwin : ∀ e ∈ s, ∀ e' ∈ s, e.ts < e'.ts + 300000)
    (hlu : ∀ kv ∈ G.nodes, luState s kv.2) :
    G.cleanup_old_errors ts = G := by
  obtain ⟨e', he', htse⟩ := hts
  have herr : (G.nodes.filter fun kv =>
      decide (kv.2.node_type = NodeType.Error ∧
        kv.2.last_update < ts - G.error_window_ms)) = [] := by
    rw [List.filter_eq_nil_iff]
    intro kv hkv
    obtain ⟨⟨e, he, hlue⟩, -, -⟩ := hlu kv hkv
    simp only [decide_eq_true_eq]
    intro hcon
    have hwin := Hwin e' he' e he
    rw [hw] at hcon
    have h300 : 5 * 60 * 1000 = 300000 := rfl
    rw [h300] at hcon
    omega
  have hdead : (G.nodes.filter fun kv =>
      decide (deadProcess (ts - 10 * 60 * 1000) kv.2)) = [] := by
    rw [List.filter_eq_nil_iff]
    intro kv hkv
    obtain ⟨⟨e, he, hlue⟩, hs1, hs2⟩ := hlu kv hkv
    simp only [decide_eq_true_eq]
    intro hcon
    obtain ⟨-, hd⟩ := hcon
    rcases hd with hd | hd
    · rcases hd with hd | hd
      · exact hs1 hd
      · exact hs2 hd
    · obtain ⟨hlt, -⟩ := hd
      have hwin := Hwin e' he' e he
      have h600 : 10 * 60 * 1000 = 600000 := rfl
      rw [h600] at hlt
      omega
  unfold StateGraph.cleanup_old_errors
  dsimp only
  rw [herr]
  dsimp only [List.map_nil]
  rw [filter_not_mem_nil_nodes, filter_edges_nil1, hdead]
  dsimp only [List.map_nil]
  rw [filter_not_mem_nil_nodes, filter_edges_nil2]


/-- `SIM` ignores the replay side's edges. -/
theorem sim_gedges {s : List Event} {G1 G H : StateGraph} (hsim : SIM s G1 G H)
    (E : List Edge) : SIM s G1 { G with edges := E } H := by
  obtain ⟨hw1, hw2, hed, hluG, hluH, hex, hrel⟩ := hsim
  exact ⟨hw1, hw2, hed, hluG, hluH, hex, hrel⟩

/-- A create-if-absent step on the replay side alone preserves `SIM`
when the created node either has empty metadata or sits at a key whose
once-ingested node is an error node. -/
theorem sim_gensure {s : List Event} {G1 G H : StateGraph} (hsim : SIM s G1 G H)
    (id : String) (dn : Node)
    (hdnstate : alGet "state" dn.metadata = none)
    (hdnlu : ∃ e ∈ s, dn.last_update = e.ts)
    (hcase : (∀ mk, alGet mk dn.metadata = none) ∨
      (∃ n3, alGet id G1.nodes = some n3 ∧ n3.node_type = NodeType.Error)) :
    SIM s G1 { G with nodes := ensureNode id dn G.nodes } H := by
  obtain ⟨hw1, hw2, hed, hluG, hluH, hex, hrel⟩ := hsim
  refine ⟨hw1, hw2, hed, ?_, hluH, hex, ?_⟩
  · intro kv hkv
    rcases mem_ensureNode hkv with h1 | h1
    · rw [h1]
      refine ⟨hdnlu, ?_, ?_⟩
      · rw [hdnstate]
        exact fun hc => Option.noConfusion hc
      · rw [hdnstate]
        exact fun hc => Option.noConfusion hc
    · exact hluG kv h1
  · intro k n2 hk
    obtain ⟨n3, h3, hsn⟩ := hrel k n2 hk
    refine ⟨n3, h3, ?_⟩
    by_cases hkid : k = id
    · subst hkid
      cases hGk : alGet k G.nodes with
      | some n1 =>
        rw [ensure_of_isSome (by rw [hGk]; rfl)]
        exact hsn
      | none =>
        have hins : ensureNode k dn G.nodes = alInsert k dn G.nodes := by
          unfold ensureNode
          rw [hGk]
          rfl
        rw [hins, alGet_alInsert_self]
        obtain ⟨ht, herr, hne⟩ := hsn
        refine ⟨ht, herr, ?_⟩
        intro hneq
        rcases hcase with hemp | ⟨n3', h3', hty'⟩
        · rcases hne hneq with ⟨n1, hcontra, -⟩ | hovl
          · rw [hGk] at hcontra
            exact Option.noConfusion hcontra
          · refine Or.inr ?_
            intro mk
            have h0 := hovl mk
            rw [hGk] at h0
            simp only [overlay] at h0
            simp only [overlay, hemp mk]
            exact h0
        · rw [h3] at h3'
          cases Option.some.inj h3'
          exact absurd hty' hneq
    · rw [alGet_ensure_ne _ _ hkid]
      exact hsn

/-- A synchronized metadata write at a key whose once-ingested node is
not an error node preserves `SIM`, provided the replayed prefix already
has the key. -/
theorem sim_update {s : List Event} {G1 G H : StateGraph} (hsim : SIM s G1 G H)
    (x mkey v : String) (ts : Nat)
    (hts : ∃ e ∈ s, ts = e.ts)
    (hmkey : ¬ "state" = mkey)
    (hxty : ∀ n3, alGet x G1.nodes = some n3 → ¬ n3.node_type = NodeType.Error)
    (hGx : (alGet x G.nodes).isSome = true) :
    SIM s G1
      { G with nodes := updateNode x (fun node =>
          { node with
            metadata := alInsert mkey v node.metadata,
            last_update := ts }) G.nodes }
      { H with nodes := updateNode x (fun node =>
          { node with
            metadata := alInsert mkey v node.metadata,
            last_update := ts }) H.nodes } := by
  obtain ⟨hw1, hw2, hed, hluG, hluH, hex, hrel⟩ := hsim
  obtain ⟨n1x, hn1x⟩ := Option.isSome_iff_exists.mp hGx
  refine ⟨hw1, hw2, hed, ?_, ?_, ?_, ?_⟩
  · intro kv hkv
    rcases mem_updateNode hkv with ⟨n0, hn0, hkveq⟩ | h1
    · obtain ⟨hlu0, hs1, hs2⟩ := hluG (x, n0) (alGet_mem hn0)
      rw [hkveq]
      refine ⟨hts, ?_, ?_⟩
      · show ¬ alGet "state" (alInsert mkey v n0.metadata) = some "exit"
        rw [alGet_alInsert_ne _ _ hmkey]
        exact hs1
      · show ¬ alGet "state" (alInsert mkey v n0.metadata) = some "zombie"
        rw [alGet_alInsert_ne _ _ hmkey]
        exact hs2
    · exact hluG kv h1
  · intro kv hkv
    rcases mem_updateNode hkv with ⟨n0, hn0, hkveq⟩ | h1
    · obtain ⟨hlu0, hs1, hs2⟩ := hluH (x, n0) (alGet_mem hn0)
      rw [hkveq]
      refine ⟨hts, ?_, ?_⟩
      · show ¬ alGet "state" (alInsert mkey v n0.metadata) = some "exit"
        rw [alGet_alInsert_ne _ _ hmkey]
        exact hs1
      · show ¬ alGet "state" (alInsert mkey v n0.metadata) = some "zombie"
        rw [alGet_alInsert_ne _ _ hmkey]
        exact hs2
    · exact hluH kv h1
  · intro k
    rw [alGet_updateNode_isSome_eq]
    exact hex k
  · intro k n2 hk
    by_cases hkx : k = x
    · subst hkx
      cases hHk : alGet k H.nodes with
      | none =>
        unfold updateNode at hk
        rw [hHk] at hk
        rw [hHk] at hk
        exact Option.noConfusion hk
      | some h2x =>
        rw [alGet_updateNode_self hHk] at hk
        obtain ⟨n3, h3, hty0, herr0, hne0⟩ := hrel k h2x hHk
        have hn3ne := hxty n3 h3
        have hk2 : n2 = { h2x with
            metadata := alInsert mkey v h2x.metadata,
            last_update := ts } := (Option.some.inj hk).symm
        subst hk2
        refine ⟨n3, h3, hty0, fun hE => absurd hE hn3ne, ?_⟩
        intro hnE
        rw [alGet_updateNode_self hn1x]
        rcases hne0 hnE with ⟨n1, hn1, hmeq⟩ | hovl
        · rw [hn1x] at hn1
          cases Option.some.inj hn1
          left
          refine ⟨_, rfl, ?_⟩
          show alInsert mkey v h2x.metadata = alInsert mkey v n1x.metadata
          rw [hmeq]
        · right
          intro mk
          by_cases hmk : mk = mkey
          · subst hmk
            show alGet mk (alInsert mk v h2x.metadata) = _
            rw [alGet_alInsert_self]
            simp only [overlay]
            show _ = (match alGet mk (alInsert mk v n1x.metadata) with
              | some w => some w
              | none => alGet mk n3.metadata)
            rw [alGet_alInsert_self]
          · have h0 := hovl mk
            rw [hn1x] at h0
            show alGet mk (alInsert mkey v h2x.metadata) = _
            rw [alGet_alInsert_ne _ _ hmk]
            rw [h0]
            simp only [overlay]
            rw [alGet_alInsert_ne _ _ hmk]
    · rw [alGet_update_ne _ _ hkx] at hk
      obtain ⟨n3, h3, hsn⟩ := hrel k n2 hk
      refine ⟨n3, h3, ?_⟩
      rw [alGet_update_ne _ _ hkx]
      exact hsn

/-- A synchronized unconditional node insertion (the `process.state
start` rewrite) preserves `SIM` when the once-ingested node at that key
has the same non-error kind and the inserted node carries a batch
timestamp and a non-exited state. -/
theorem sim_replace {s : List Event} {G1 G H : StateGraph} (hsim : SIM s G1 G H)
    (x : String) (nodeE : Node)
    (hty : ∃ n3, alGet x G1.nodes = some n3 ∧ nodeE.node_type = n3.node_type ∧
      ¬ n3.node_type = NodeType.Error)
    (hst1 : ¬ alGet "state" nodeE.metadata = some "exit")
    (hst2 : ¬ alGet "state" nodeE.metadata = some "zombie")
    (hlu : ∃ e ∈ s, nodeE.last_update = e.ts)
    (hHx : (alGet x H.nodes).isSome = true) :
    SIM s G1 { G with nodes := alInsert x nodeE G.nodes }
      { H with nodes := alInsert x nodeE H.nodes } := by
  obtain ⟨hw1, hw2, hed, hluG, hluH, hex, hrel⟩ := hsim
  refine ⟨hw1, hw2, hed, ?_, ?_, ?_, ?_⟩
  · intro kv hkv
    rcases mem_alInsert hkv with h1 | h1
    · rw [h1]
      exact ⟨hlu, hst1, hst2⟩
    · exact hluG kv h1
  · intro kv hkv
    rcases mem_alInsert hkv with h1 | h1
    · rw [h1]
      exact ⟨hlu, hst1, hst2⟩
    · exact hluH kv h1
  · intro k
    rw [alGet_alInsert_isSome_eq hHx]
    exact hex k
  · intro k n2 hk
    by_cases hkx : k = x
    · subst hkx
      rw [alGet_alInsert_self] at hk
      have hk2 : nodeE = n2 := Option.some.inj hk
      subst hk2
      obtain ⟨n3, h3, htyeq, hne⟩ := hty
      refine ⟨n3, h3, htyeq, fun hE => absurd hE hne, ?_⟩
      intro _
      left
      exact ⟨nodeE, alGet_alInsert_self _ _ _, rfl⟩
    · rw [alGet_alInsert_ne _ _ hkx] at hk
      obtain ⟨n3, h3, hsn⟩ := hrel k n2 hk
      refine ⟨n3, h3, ?_⟩
      rw [alGet_alInsert_ne _ _ hkx]
      exact hsn


/-- `SIM` is preserved by a synchronized `process.state` step that is
not an exit or zombie transition. -/
theorem sim_hps {s : List Event} {G1 G H : StateGraph} (hsim : SIM s G1 G H)
    (ev : Event) (hts : ∃ e' ∈ s, ev.ts = e'.ts)
    (hno : ¬ ev.value = "exit" ∧ ¬ ev.value = "zombie")
    (hstart : ∀ p, ev.pid = some p → ev.value = "start" →
      ∃ n3, alGet ("pid-" ++ toString p) G1.nodes = some n3 ∧
        n3.node_type = NodeType.Process) :
    SIM s G1 (G.handle_process_state ev) (H.handle_process_state ev) := by
  unfold StateGraph.handle_process_state
  cases hp : ev.pid with
  | none => exact hsim
  | some p =>
    dsimp only
    by_cases hval : ev.value = "start"
    · rw [if_pos hval, if_pos hval]
      obtain ⟨n3, h3, h3ty⟩ := hstart p hp hval
      refine sim_replace hsim _ _ ⟨n3, h3, h3ty.symm, ?_⟩ ?_ ?_ hts ?_
      · rw [h3ty]
        exact fun hc => NodeType.noConfusion hc
      · rw [alGet_alInsert_self]
        decide
      · rw [alGet_alInsert_self]
        decide
      · rw [hsim.2.2.2.2.2.1, h3]
        rfl
    · rw [if_neg hval, if_neg hval,
        if_neg (not_or.mpr ⟨hno.1, hno.2⟩), if_neg (not_or.mpr ⟨hno.1, hno.2⟩)]
      exact hsim

/-- `SIM` is preserved by a synchronized compute-event step when the
once-ingested graph already carries the entity node, the process node
and the `Consumes` edge the handler would create. -/
theorem sim_hce {s : List Event} {G1 G H : StateGraph} (hsim : SIM s G1 G H)
    (ev : Event) (hts : ∃ e' ∈ s, ev.ts = e'.ts)
    (hent : ∃ n3, alGet ev.entity_id G1.nodes = some n3 ∧
      ¬ n3.node_type = NodeType.Error)
    (hpidf : ∀ p, ev.pid = some p →
      (alGet ("pid-" ++ toString p) G1.nodes).isSome = true ∧
      ∃ ed ∈ G1.edges, ed.edge_type = EdgeType.Consumes ∧
        ed.from_ = "pid-" ++ toString p ∧ ed.to_ = ev.entity_id) :
    SIM s G1 (G.handle_compute_event ev) (H.handle_compute_event ev) := by
  obtain ⟨n3x, h3x, h3xty⟩ := hent
  have hex := hsim.2.2.2.2.2.1
  have hedH := hsim.2.2.1
  have hHx : (alGet ev.entity_id H.nodes).isSome = true := by
    rw [hex, h3x]
    rfl
  have hxty : ∀ n3, alGet ev.entity_id G1.nodes = some n3 →
      ¬ n3.node_type = NodeType.Error := by
    intro n3 h3
    rw [h3x] at h3
    cases Option.some.inj h3
    exact h3xty
  unfold StateGraph.handle_compute_event
  cases hp : ev.pid with
  | none =>
    dsimp only
    rw [ensure_of_isSome hHx]
    exact sim_update
      (sim_gensure hsim ev.entity_id
        { id := ev.entity_id, node_type := NodeType.Resource,
          last_update := ev.ts, metadata := [] }
        rfl hts (Or.inl fun mk => rfl))
      ev.entity_id "util" ev.value ev.ts hts (by decide) hxty
      (alGet_ensure_self_isSome _ _ _)
  | some p =>
    dsimp only
    obtain ⟨hpidSome, ed, hed, hc1, hc2, hc3⟩ := hpidf p hp
    have hHpid : (alGet ("pid-" ++ toString p) H.nodes).isSome = true := by
      rw [hex]
      exact hpidSome
    rw [ensure_of_isSome hHx]
    rw [ensure_of_isSome (show (alGet ("pid-" ++ toString p)
        (updateNode ev.entity_id (fun node =>
          { node with
            metadata := alInsert "util" ev.value node.metadata,
            last_update := ev.ts }) H.nodes)).isSome = true from by
      rw [alGet_updateNode_isSome_eq]
      exact hHpid)]
    have hanyH : (H.edges.any fun e => decide (e.edge_type = EdgeType.Consumes ∧
        e.from_ = "pid-" ++ toString p ∧ e.to_ = ev.entity_id)) = true := by
      refine List.any_eq_true.mpr ⟨ed, ?_, ?_⟩
      · rw [hedH]
        exact hed
      · rw [decide_eq_true_eq]
        exact ⟨hc1, hc2, hc3⟩
    rw [if_pos hanyH]
    exact sim_gedges
      (sim_gensure
        (sim_update
          (sim_gensure hsim ev.entity_id
            { id := ev.entity_id, node_type := NodeType.Resource,
              last_update := ev.ts, metadata := [] }
            rfl hts (Or.inl fun mk => rfl))
          ev.entity_id "util" ev.value ev.ts hts (by decide) hxty
          (alGet_ensure_self_isSome _ _ _))
        ("pid-" ++ toString p)
        { id := "pid-" ++ toString p, node_type := NodeType.Process,
          last_update := ev.ts, metadata := [] }
        rfl hts (Or.inl fun mk => rfl)) _

/-- The body of `handle_transport_event` with the metadata key and the
`WaitsOn` decision abstracted. -/
def transportCore (g : StateGraph) (ev : Event) (key : String) (waits : Bool) :
    StateGraph :=
  let nodes := ensureNode ev.entity_id
    { id := ev.entity_id, node_type := NodeType.Resource,
      last_update := ev.ts, metadata := [] } g.nodes
  let nodes := updateNode ev.entity_id
    (fun node =>
      { node with
        metadata := alInsert key ev.value node.metadata,
        last_update := ev.ts }) nodes
  match ev.pid with
  | none => { g with nodes := nodes }
  | some pid =>
    if waits then
      let pid_str := "pid-" ++ toString pid
      let nodes := ensureNode pid_str
        { id := pid_str, node_type := NodeType.Process,
          last_update := ev.ts, metadata := [] } nodes
      let edge_exists := g.edges.any fun e =>
        decide (e.edge_type = EdgeType.WaitsOn ∧ e.from_ = pid_str ∧
          e.to_ = ev.entity_id)
      let edges :=
        if edge_exists then g.edges
        else g.edges ++ [{ edge_type := EdgeType.WaitsOn, from_ := pid_str,
                           to_ := ev.entity_id, ts := ev.ts }]
      { g with nodes := nodes, edges := edges }
    else
      { g with nodes := nodes }

theorem hte_core_eq (g : StateGraph) (ev : Event) :
    g.handle_transport_event ev = transportCore g ev
      (match ev.event_type with
       | EventType.TransportBw => "bw"
       | EventType.TransportDrop => "drop"
       | _ => "unknown")
      (match ev.event_type with
       | EventType.TransportDrop => true
       | EventType.TransportBw =>
         strHasSub ev.value "IO_WAIT" || decide ((parseF ev.value).getD 1000 < 1)
       | _ => false) := rfl

/-- `SIM` is preserved by a synchronized transport-kind step when the
once-ingested graph already carries the entity node and, whenever a
`WaitsOn` edge would be created, the process node and that edge. -/
theorem sim_transport_core {s : List Event} {G1 G H : StateGraph}
    (hsim : SIM s G1 G H) (ev : Event) (key : String) (waits : Bool)
    (hkey : ¬ "state" = key)
    (hts : ∃ e' ∈ s, ev.ts = e'.ts)
    (hent : ∃ n3, alGet ev.entity_id G1.nodes = some n3 ∧
      ¬ n3.node_type = NodeType.Error)
    (hpw : ∀ p, ev.pid = some p → waits = true →
      (alGet ("pid-" ++ toString p) G1.nodes).isSome = true ∧
      ∃ ed ∈ G1.edges, ed.edge_type = EdgeType.WaitsOn ∧
        ed.from_ = "pid-" ++ toString p ∧ ed.to_ = ev.entity_id) :
    SIM s G1 (transportCore G ev key waits) (transportCore H ev key waits) := by
  obtain ⟨n3x, h3x, h3xty⟩ := hent
  have hex := hsim.2.2.2.2.2.1
  have hedH := hsim.2.2.1
  have hHx : (alGet ev.entity_id H.nodes).isSome = true := by
    rw [hex, h3x]
    rfl
  have hxty : ∀ n3, alGet ev.entity_id G1.nodes = some n3 →
      ¬ n3.node_type = NodeType.Error := by
    intro n3 h3
    rw [h3x] at h3
    cases Option.some.inj h3
    exact h3xty
  unfold transportCore
  cases hp : ev.pid with
  | none =>
    dsimp only
    rw [ensure_of_isSome hHx]
    exact sim_update
      (sim_gensure hsim ev.entity_id
        { id := ev.entity_id, node_type := NodeType.Resource,
          last_update := ev.ts, metadata := [] }
        rfl hts (Or.inl fun mk => rfl))
      ev.entity_id key ev.value ev.ts hts hkey hxty
      (alGet_ensure_self_isSome _ _ _)
  | some p =>
    dsimp only
    cases hw : waits with
    | false =>
      rw [if_neg (show ¬ false = true from by decide),
        if_neg (show ¬ false = true from by decide)]
      rw [ensure_of_isSome hHx]
      exact sim_update
        (sim_gensure hsim ev.entity_id
          { id := ev.entity_id, node_type := NodeType.Resource,
            last_update := ev.ts, metadata := [] }
          rfl hts (Or.inl fun mk => rfl))
        ev.entity_id key ev.value ev.ts hts hkey hxty
        (alGet_ensure_self_isSome _ _ _)
    | true =>
      rw [if_pos (show true = true from rfl), if_pos (show true = true from rfl)]
      obtain ⟨hpidSome, ed, hed, hc1, hc2, hc3⟩ := hpw p hp hw
      have hHpid : (alGet ("pid-" ++ toString p) H.nodes).isSome = true := by
        rw [hex]
        exact hpidSome
      rw [ensure_of_isSome hHx]
      rw [ensure_of_isSome (show (alGet ("pid-" ++ toString p)
          (updateNode ev.entity_id (fun node =>
            { node with
              metadata := alInsert key ev.value node.metadata,
              last_update := ev.ts }) H.nodes)).isSome = true from by
        rw [alGet_updateNode_isSome_eq]
        exact hHpid)]
      have hanyH : (H.edges.any fun e => decide (e.edge_type = EdgeType.WaitsOn ∧
          e.from_ = "pid-" ++ toString p ∧ e.to_ = ev.entity_id)) = true := by
        refine List.any_eq_true.mpr ⟨ed, ?_, ?_⟩
        · rw [hedH]
          exact hed
        · rw [decide_eq_true_eq]
          exact ⟨hc1, hc2, hc3⟩
      rw [if_pos hanyH]
      exact sim_gedges
        (sim_gensure
          (sim_update
            (sim_gensure hsim ev.entity_id
              { id := ev.entity_id, node_type := NodeType.Resource,
                last_update := ev.ts, metadata := [] }
              rfl hts (Or.inl fun mk => rfl))
            ev.entity_id key ev.value ev.ts hts hkey hxty
            (alGet_ensure_self_isSome _ _ _))
          ("pid-" ++ toString p)
          { id := "pid-" ++ toString p, node_type := NodeType.Process,
            last_update := ev.ts, metadata := [] }
          rfl hts (Or.inl fun mk => rfl)) _

/-- When every consumer of the erroring entity already has a
`BlockedBy` edge to its error node, the error handler adds no edge. -/
theorem hee_edges_id (g : StateGraph) (ev : Event)
    (hsat : ∀ ed ∈ g.edges, ed.edge_type = EdgeType.Consumes →
      ed.to_ = ev.entity_id →
      ∃ b ∈ g.edges, b.edge_type = EdgeType.BlockedBy ∧ b.from_ = ed.from_ ∧
        b.to_ = "error-" ++ ev.entity_id) :
    (g.handle_error_event ev).edges = g.edges := by
  unfold StateGraph.handle_error_event
  dsimp only
  apply foldl_id_of
  intro p hp
  obtain ⟨ed0, hed0, hfrom⟩ := List.mem_map.mp hp
  obtain ⟨hmem, hpred⟩ := List.mem_filter.mp hed0
  rw [decide_eq_true_eq] at hpred
  obtain ⟨b, hb, hb1, hb2, hb3⟩ := hsat ed0 hmem hpred.1 hpred.2
  have hany : (g.edges.any fun e => decide (e.edge_type = EdgeType.BlockedBy ∧
      e.from_ = p ∧ e.to_ = "error-" ++ ev.entity_id)) = true := by
    refine List.any_eq_true.mpr ⟨b, hb, ?_⟩
    rw [decide_eq_true_eq]
    exact ⟨hb1, hfrom ▸ hb2, hb3⟩
  rw [if_pos hany]

/-- `SIM` is preserved by a synchronized error-event step when the
once-ingested graph already carries the error node and every consumer
of the entity is already blocked on it. -/
theorem sim_hee {s : List Event} {G1 G H : StateGraph} (hsim : SIM s G1 G H)
    (ev : Event) (hts : ∃ e' ∈ s, ev.ts = e'.ts)
    (herrn : ∃ n3, alGet ("error-" ++ ev.entity_id) G1.nodes = some n3 ∧
      n3.node_type = NodeType.Error)
    (hsat : ∀ ed ∈ G1.edges, ed.edge_type = EdgeType.Consumes →
      ed.to_ = ev.entity_id →
      ∃ b ∈ G1.edges, b.edge_type = EdgeType.BlockedBy ∧ b.from_ = ed.from_ ∧
        b.to_ = "error-" ++ ev.entity_id) :
    SIM s G1 (G.handle_error_event ev) (H.handle_error_event ev) := by
  obtain ⟨n3e, h3e, h3ety⟩ := herrn
  have hex := hsim.2.2.2.2.2.1
  have hedH := hsim.2.2.1
  have hHe : (alGet ("error-" ++ ev.entity_id) H.nodes).isSome = true := by
    rw [hex, h3e]
    rfl
  have hH : H.handle_error_event ev = H := by
    apply sgEq
    · show ensureNode ("error-" ++ ev.entity_id) _ H.nodes = H.nodes
      exact ensure_of_isSome hHe
    · show (H.handle_error_event ev).edges = H.edges
      apply hee_edges_id
      rw [hedH]
      exact hsat
    · rfl
  rw [hH]
  unfold StateGraph.handle_error_event
  dsimp only
  exact sim_gedges
    (sim_gensure hsim ("error-" ++ ev.entity_id)
      { id := "error-" ++ ev.entity_id, node_type := NodeType.Error,
        last_update := ev.ts, metadata := alInsert "error_type" ev.value [] }
      (by rw [alGet_alInsert_ne _ _ (by decide)]; rfl)
      hts
      (Or.inr ⟨n3e, h3e, h3ety⟩)) _


/-- `SIM` is preserved by a synchronized dispatch of any single batch
event whose requirements `touchedOKb` grants. -/
theorem sim_dispatch {s : List Event} {G1 G H : StateGraph} (hsim : SIM s G1 G H)
    (e : Event) (hts : ∃ e' ∈ s, e.ts = e'.ts)
    (hno : e.event_type = EventType.ProcessState →
      ¬ e.value = "exit" ∧ ¬ e.value = "zombie")
    (htb : touchedOKb G1 e = true) :
    SIM s G1 (G.dispatch_event e) (H.dispatch_event e) := by
  unfold StateGraph.dispatch_event StateGraph.handle_storage_event
    StateGraph.handle_topo_event
  cases hty : e.event_type with
  | ComputeUtil =>
    simp only [touchedOKb, hty, Bool.and_eq_true] at htb
    obtain ⟨htb1, htb2⟩ := htb
    apply sim_hce hsim e hts (nodePresentNonErr_spec htb1)
    intro p hp
    rw [hp] at htb2
    simp only [Bool.and_eq_true] at htb2
    exact ⟨htb2.1, hasEdgeB_spec htb2.2⟩
  | ComputeMem =>
    simp only [touchedOKb, hty, Bool.and_eq_true] at htb
    obtain ⟨htb1, htb2⟩ := htb
    apply sim_hce hsim e hts (nodePresentNonErr_spec htb1)
    intro p hp
    rw [hp] at htb2
    simp only [Bool.and_eq_true] at htb2
    exact ⟨htb2.1, hasEdgeB_spec htb2.2⟩
  | TransportBw =>
    rw [hte_core_eq G e, hte_core_eq H e, hty]
    dsimp only
    simp only [touchedOKb, hty, Bool.and_eq_true] at htb
    obtain ⟨htb1, htb2⟩ := htb
    apply sim_transport_core hsim e "bw" _ (by decide) hts
      (nodePresentNonErr_spec htb1)
    intro p hp hw
    rw [hp] at htb2
    dsimp only at htb2
    rw [if_pos hw] at htb2
    rw [Bool.and_eq_true] at htb2
    exact ⟨htb2.1, hasEdgeB_spec htb2.2⟩
  | TransportDrop =>
    rw [hte_core_eq G e, hte_core_eq H e, hty]
    dsimp only
    simp only [touchedOKb, hty, Bool.and_eq_true] at htb
    obtain ⟨htb1, htb2⟩ := htb
    apply sim_transport_core hsim e "drop" true (by decide) hts
      (nodePresentNonErr_spec htb1)
    intro p hp hw
    rw [hp] at htb2
    dsimp only at htb2
    rw [Bool.and_eq_true] at htb2
    exact ⟨htb2.1, hasEdgeB_spec htb2.2⟩
  | StorageIops =>
    rw [hte_core_eq G e, hte_core_eq H e, hty]
    dsimp only
    simp only [touchedOKb, hty] at htb
    exact sim_transport_core hsim e "unknown" false (by decide) hts
      (nodePresentNonErr_spec htb) (fun p hp hw => Bool.noConfusion hw)
  | StorageQDepth =>
    rw [hte_core_eq G e, hte_core_eq H e, hty]
    dsimp only
    simp only [touchedOKb, hty] at htb
    exact sim_transport_core hsim e "unknown" false (by decide) hts
      (nodePresentNonErr_spec htb) (fun p hp hw => Bool.noConfusion hw)
  | ProcessState =>
    simp only [touchedOKb, hty] at htb
    apply sim_hps hsim e hts (hno hty)
    intro p hp hval
    rw [hp] at htb
    dsimp only at htb
    rw [if_pos (show (e.value == "start") = true from by rw [hval]; rfl)] at htb
    exact nodePresentTy_spec htb
  | ErrorHw =>
    simp only [touchedOKb, hty, Bool.and_eq_true] at htb
    obtain ⟨htb1, htb2⟩ := htb
    apply sim_hee hsim e hts (nodePresentTy_spec htb1)
    intro ed hed hc ht
    have hmem : ed ∈ G1.edges.filter (fun ed =>
        ed.edge_type == EdgeType.Consumes && ed.to_ == e.entity_id) :=
      List.mem_filter.mpr ⟨hed, by simp [hc, ht]⟩
    exact hasEdgeB_spec (List.all_eq_true.mp htb2 ed hmem)
  | ErrorNet =>
    simp only [touchedOKb, hty, Bool.and_eq_true] at htb
    obtain ⟨htb1, htb2⟩ := htb
    apply sim_hee hsim e hts (nodePresentTy_spec htb1)
    intro ed hed hc ht
    have hmem : ed ∈ G1.edges.filter (fun ed =>
        ed.edge_type == EdgeType.Consumes && ed.to_ == e.entity_id) :=
      List.mem_filter.mpr ⟨hed, by simp [hc, ht]⟩
    exact hasEdgeB_spec (List.all_eq_true.mp htb2 ed hmem)
  | TopoLinkDown =>
    simp only [touchedOKb, hty, Bool.and_eq_true] at htb
    obtain ⟨htb1, htb2⟩ := htb
    apply sim_hee hsim e hts (nodePresentTy_spec htb1)
    intro ed hed hc ht
    have hmem : ed ∈ G1.edges.filter (fun ed =>
        ed.edge_type == EdgeType.Consumes && ed.to_ == e.entity_id) :=
      List.mem_filter.mpr ⟨hed, by simp [hc, ht]⟩
    exact hasEdgeB_spec (List.all_eq_true.mp htb2 ed hmem)
  | IntentRun => exact hsim
  | ActionExec => exact hsim

/-- `SIM` is preserved by a full synchronized `process_event` step. -/
theorem sim_step {s : List Event} {G1 G H : StateGraph} (hsim : SIM s G1 G H)
    (e : Event) (he : e ∈ s)
    (Hwin : ∀ a ∈ s, ∀ b ∈ s, a.ts < b.ts + 300000)
    (Hnoexit : ∀ a ∈ s, a.event_type = EventType.ProcessState →
      ¬ a.value = "exit" ∧ ¬ a.value = "zombie")
    (htb : touchedOKb G1 e = true) :
    SIM s G1 (G.process_event e) (H.process_event e) := by
  have hts : ∃ e' ∈ s, e.ts = e'.ts := ⟨e, he, rfl⟩
  have hd := sim_dispatch hsim e hts (Hnoexit e he) htb
  unfold StateGraph.process_event
  rw [cleanup_id s (G.dispatch_event e) e.ts
    (by rw [dispatch_window]; exact hsim.1) hts Hwin hd.2.2.2.1]
  rw [cleanup_id s (H.dispatch_event e) e.ts
    (by rw [dispatch_window]; exact hsim.2.1) hts Hwin hd.2.2.2.2.1]
  exact hd

/-- `SIM` is preserved by a synchronized replay of any sublist of the
batch. -/
theorem sim_run {s : List Event} {G1 : StateGraph}
    (Hwin : ∀ a ∈ s, ∀ b ∈ s, a.ts < b.ts + 300000)
    (Hnoexit : ∀ a ∈ s, a.event_type = EventType.ProcessState →
      ¬ a.value = "exit" ∧ ¬ a.value = "zombie")
    (Htb : ∀ e ∈ s, touchedOKb G1 e = true) :
    ∀ l : List Event, (∀ e ∈ l, e ∈ s) → ∀ G H, SIM s G1 G H →
      SIM s G1 (G.ingestAll l) (H.ingestAll l) := by
  intro l
  induction l with
  | nil =>
    intro _ G H h
    exact h
  | cons e rest ih =>
    intro hsub G H h
    have he := hsub e (List.mem_cons_self e rest)
    show SIM s G1 ((G.process_event e).ingestAll rest)
      ((H.process_event e).ingestAll rest)
    exact ih (fun x hx => hsub x (List.mem_cons_of_mem _ hx)) _ _
      (sim_step h e he Hwin Hnoexit (Htb e he))

/-! ### Claim C6 -/

/-- The C6 counterexample batch: an error on entity A, then a compute
event binding pid 1 to A. -/
def C6s : List Event :=
  [ mkEv 100 EventType.ErrorHw "A" none none "E1",
    mkEv 200 EventType.ComputeUtil "A" none (some 1) "50" ]

/-- C6 counterexample: ingesting the batch `C6s` (an error on entity A
followed by a compute event binding pid 1 to A) twice is not the same
as ingesting it once — the second pass of the error event finds the
now-existing `Consumes` edge and adds a `BlockedBy` edge that a single
ingestion never creates, so even the `(kind, from, to)` edge set
differs. -/
theorem C6_counterexample :
    (runEvents (C6s ++ C6s)).edges ≠ (runEvents C6s).edges ∧
    ∃ e ∈ (runEvents (C6s ++ C6s)).edges,
      e.edge_type = EdgeType.BlockedBy ∧
      ¬ ∃ e' ∈ (runEvents C6s).edges, e'.edge_type = e.edge_type ∧
        e'.from_ = e.from_ ∧ e'.to_ = e.to_ := by
  decide

/-- C6 (amended): ingesting a batch twice yields the same graph as
ingesting it once — the same edge list and, at every key, the same node
presence, node kind and metadata attributes — provided the batch lies
inside one five-minute window, contains no exit or zombie process
transition, and its once-ingested graph already saturates every event:
node timestamps are batch timestamps, no node is in an exited state,
and each event's entity, process, error node and `Consumes`, `WaitsOn`
or `BlockedBy` edges are present (`touchedOKb`) — the latter holds in
particular when consume events precede the error events for each
entity. -/
theorem C6_idempotent_amended (s : List Event)
    (Hwin : ∀ e ∈ s, ∀ e' ∈ s, e.ts < e'.ts + 300000)
    (Hnoexit : ∀ e ∈ s, e.event_type = EventType.ProcessState →
      ¬ e.value = "exit" ∧ ¬ e.value = "zombie")
    (Hlu : ∀ kv ∈ (runEvents s).nodes, ∃ e ∈ s, kv.2.last_update = e.ts)
    (Hstate : ∀ kv ∈ (runEvents s).nodes,
      ¬ alGet "state" kv.2.metadata = some "exit" ∧
      ¬ alGet "state" kv.2.metadata = some "zombie")
    (Htb : ∀ e ∈ s, touchedOKb (runEvents s) e = true) :
    (runEvents (s ++ s)).edges = (runEvents s).edges ∧
    ∀ k : String,
      (alGet k (runEvents (s ++ s)).nodes).isSome =
        (alGet k (runEvents s).nodes).isSome ∧
      ∀ n2 n3, alGet k (runEvents (s ++ s)).nodes = some n2 →
        alGet k (runEvents s).nodes = some n3 →
        n2.node_type = n3.node_type ∧
        ∀ mk, alGet mk n2.metadata = alGet mk n3.metadata := by
  have hbase : SIM s (runEvents s) StateGraph.new (runEvents s) := by
    refine ⟨rfl, runEvents_window s, rfl, ?_, ?_, fun k => rfl, ?_⟩
    · intro kv hkv
      exact absurd hkv (List.not_mem_nil kv)
    · intro kv hkv
      exact ⟨Hlu kv hkv, (Hstate kv hkv).1, (Hstate kv hkv).2⟩
    · intro k n2 hk
      exact ⟨n2, hk, rfl, fun _ mk => rfl, fun _ => Or.inr (fun mk => rfl)⟩
  have hrun := sim_run Hwin Hnoexit Htb s (fun e he => he)
    StateGraph.new (runEvents s) hbase
  have hG : StateGraph.new.ingestAll s = runEvents s := rfl
  rw [hG] at hrun
  have happ : runEvents (s ++ s) = (runEvents s).ingestAll s := by
    unfold runEvents StateGraph.ingestAll
    rw [List.foldl_append]
  rw [happ]
  obtain ⟨-, -, hed, -, -, hex, hrel⟩ := hrun
  refine ⟨hed, fun k => ⟨hex k, ?_⟩⟩
  intro n2 n3 h2 h3
  obtain ⟨n3', h3', hty, hErr, hnErr⟩ := hrel k n2 h2
  rw [h3] at h3'
  cases Option.some.inj h3'
  refine ⟨hty, ?_⟩
  by_cases hE : n3.node_type = NodeType.Error
  · exact hErr hE
  · rcases hnErr hE with ⟨n1, hn1, hmeq⟩ | hovl
    · rw [h3] at hn1
      cases Option.some.inj hn1
      intro mk
      rw [hmeq]
    · intro mk
      have h0 := hovl mk
      rw [h3] at h0
      rw [overlay_self] at h0
      exact h0

/-- C6 witness: the amended idempotence applied to scenario S1, whose
consume events precede its error event: the replayed batch leaves the
edge list and the `gpu-0` node untouched. -/
theorem C6_idempotent_amended_witness :
    (runEvents (S1 ++ S1)).edges = (runEvents S1).edges ∧
      (alGet "gpu-0" (runEvents (S1 ++ S1)).nodes).isSome =
        (alGet "gpu-0" (runEvents S1).nodes).isSome := by
  have h := C6_idempotent_amended S1 (by decide) (by decide) (by decide)
    (by decide) (by decide)
  exact ⟨h.1, (h.2 "gpu-0").1⟩


end XInfra
